import Mathlib

/-! Project-management board: authenticated real-time task synchronisation.

A shallow embedding of `project-management/backend/server.js` (the Express routes, the
HTTP and socket authentication middlewares, the socket rooms) and of the timer flow of
`project-management/frontend/src/App.jsx` (`stopTimer` and the socket listeners).

Modelling conventions.

* The Mongo collection behind the `Task` model is a list of documents in insertion order
  together with the next identifier the store hands out. Identifiers are natural numbers.
* `jwt.verify(token, JWT_SECRET)` is a parameter `verify : String → Option Decoded`;
  `none` stands for a thrown verification error.
* `Date.now()` is a parameter `now` of every operation that stamps a document.
* A JavaScript Number is the exact value of a finite double, NaN, or an infinity, and `+`
  rounds the exact sum to the nearest double, ties to even. Negative zero is identified
  with zero.
* The JSON body of a request enters the model as what Mongoose makes of it. A plain body
  has every path declared in `taskSchema` absent or holding a value of the type of the
  path, after casting; paths outside the schema are dropped. Every other body (null
  values, update operators, values that fail a cast) is given by the document or the
  change it stands for, or as rejected. The store assigns `_id` and the timestamps: a
  create body that carries them is outside the model.
* A handler returns the store it leaves behind and the trace of its effects in execution
  order: store writes that completed, socket emits, and the HTTP response. A rejected
  promise that the handler does not catch ends the trace.
* The rooms of a socket are the rooms the server code joins it to.
-/

namespace ProjectManagement

/-! ## JavaScript Numbers -/

/-- A JavaScript Number: a finite value, NaN, or an infinity. -/
inductive Num where
  | finite (q : ℚ)
  | nan
  | inf (negative : Bool)
deriving DecidableEq, Repr

/-- Round a non-negative rational to the nearest natural number, ties to even. -/
def halfEven (m : ℚ) : ℕ :=
  if m - ⌊m⌋₊ < 1 / 2 then ⌊m⌋₊
  else if 1 / 2 < m - ⌊m⌋₊ then ⌊m⌋₊ + 1
  else if ⌊m⌋₊ % 2 = 0 then ⌊m⌋₊ else ⌊m⌋₊ + 1

/-- The exponent of the unit in the last place of the double nearest to a positive
rational: 52 below its binary exponent, and no lower than the subnormal exponent. -/
def ulpExponent (a : ℚ) : ℤ :=
  max (Int.log 2 a - 52) (-1074)

/-- IEEE 754 binary64 rounding (to nearest, ties to even) of an exact result. -/
def Num.ofRat (q : ℚ) : Num :=
  if q = 0 then .finite 0
  else
    let r := (halfEven (|q| / 2 ^ ulpExponent |q|) : ℚ) * 2 ^ ulpExponent |q|
    if 2 ^ 1024 ≤ r then .inf (decide (q < 0))
    else .finite (if q < 0 then -r else r)

/-- JavaScript `a + b` on Numbers. -/
def Num.add : Num → Num → Num
  | .finite a, .finite b => Num.ofRat (a + b)
  | .nan, _ => .nan
  | _, .nan => .nan
  | .inf s, .inf t => if s = t then .inf s else .nan
  | .inf s, .finite _ => .inf s
  | .finite _, .inf t => .inf t

/-- JavaScript `a < b` on Numbers. -/
def Num.lt : Num → Num → Prop
  | .finite a, .finite b => a < b
  | .finite _, .inf negative => negative = false
  | .inf negative, .finite _ => negative = true
  | .inf s, .inf t => s = true ∧ t = false
  | _, _ => False

instance Num.lt_decidable : DecidableRel Num.lt := fun a b =>
  match a, b with
  | .finite x, .finite y => inferInstanceAs (Decidable (x < y))
  | .finite _, .inf negative => inferInstanceAs (Decidable (negative = false))
  | .inf negative, .finite _ => inferInstanceAs (Decidable (negative = true))
  | .inf s, .inf t => inferInstanceAs (Decidable (s = true ∧ t = false))
  | .nan, _ => isFalse (by simp [Num.lt])
  | .finite _, .nan => isFalse (by simp [Num.lt])
  | .inf _, .nan => isFalse (by simp [Num.lt])

/-- JavaScript `x || 0` on a Number that may be `undefined` or `null`. -/
def orZero : Option Num → Num
  | some (.finite q) => .finite q
  | some (.inf negative) => .inf negative
  | some .nan => .finite 0
  | none => .finite 0

/-- `JSON.stringify` of a Number: NaN and the infinities are sent as `null`. -/
def Num.toJSON : Num → Option Num
  | .finite q => some (.finite q)
  | .nan => none
  | .inf _ => none

/-! ## Data model -/

/-- Payload of a verified token, as signed by the register and login routes. -/
structure Decoded where
  id : String
  email : String
deriving DecidableEq, Repr

/-- A document of the `Task` model: the paths of `taskSchema` plus `_id` and timestamps.
A path that is missing or `null` is `none`. -/
structure Task where
  _id : Nat
  title : Option String
  description : Option String
  status : Option String
  projectId : Option String
  assigneeId : Option String
  dueDate : Option Nat
  orderIndex : Option Num
  timerSeconds : Option Num
  userId : Option String
  createdAt : Nat
  updatedAt : Nat
deriving DecidableEq, Repr

/-- A plain JSON request body along the paths declared in `taskSchema`: every path is
absent or holds a value of the type of the path. -/
structure TaskBody where
  title : Option String := none
  description : Option String := none
  status : Option String := none
  projectId : Option String := none
  assigneeId : Option String := none
  dueDate : Option Nat := none
  orderIndex : Option Num := none
  timerSeconds : Option Num := none
  userId : Option String := none
deriving DecidableEq, Repr

/-- What Mongoose makes of the JSON body of a create request. -/
inductive CreateBody where
  /-- A plain body. -/
  | plain (paths : TaskBody)
  /-- A body with `null` values at some paths, given by the values of the schema paths of
  the document Mongoose builds from it. -/
  | built (doc : Task)
  /-- A body in which a path other than `userId` holds a value that fails the cast. -/
  | invalid

/-- What Mongoose and MongoDB make of the JSON body of an update request. -/
inductive UpdateBody where
  /-- A plain body: the `$set` of the paths it carries. -/
  | plain (paths : TaskBody)
  /-- A body with update operators (`$inc`, `$set`, `$unset`, ...) or `null` values, given
  by the change it makes to the schema paths of the matched document. -/
  | operators (change : Task → Task)
  /-- A body the update is rejected for: a value that fails the cast, conflicting
  operators, a change of `_id`. -/
  | rejected

/-- The `tasks` collection. -/
structure Store where
  tasks : List Task
  nextId : Nat
deriving DecidableEq, Repr

/-- Events sent over the socket channel. -/
inductive Event where
  | taskCreated (t : Task)
  | taskUpdated (t : Task)
  | taskDeleted (id : Nat)
deriving DecidableEq, Repr

/-- Bodies passed to `res.json`. -/
inductive ResBody where
  | task (t : Task)
  | tasks (ts : List Task)
  | error (msg : String)
  | success
deriving DecidableEq, Repr

/-- An HTTP response: status code and JSON body. -/
structure Response where
  status : Nat
  body : ResBody
deriving DecidableEq, Repr

/-- A completed write on the collection. -/
inductive Write where
  | inserted (t : Task)
  | updated (t : Task)
  | removed (t : Task)
deriving DecidableEq, Repr

/-- One observable step of a request handler. -/
inductive Effect where
  | db (w : Write)
  | emit (room : String) (event : Event)
  | respond (r : Response)
deriving DecidableEq, Repr

/-- What a handler leaves behind: the store and the trace of its effects, in order. -/
structure Outcome where
  store : Store
  effects : List Effect
deriving DecidableEq, Repr

/-! ## taskSchema and the `Task` model -/

/-- The `enum` of the `status` path. -/
def statusEnum : List String := ["pending", "ongoing", "completed"]

/-- The validator of the `status` path: a missing or `null` status is not checked. -/
def enumValidator : Option String → Bool
  | none => true
  | some v => decide (v ∈ statusEnum)

/-- The payload built by the create route, `{ ...req.body, userId }`, on a plain body. -/
def withUserId (body : TaskBody) (userId : String) : TaskBody :=
  { body with userId := some userId }

/-- The payload built by the create route: `{ ...req.body, userId }`. -/
def CreateBody.withUserId (body : CreateBody) (userId : String) : CreateBody :=
  match body with
  | .plain paths => .plain (ProjectManagement.withUserId paths userId)
  | .built doc => .built { doc with userId := some userId }
  | .invalid => .invalid

/-- The document `new Task(payload)` builds from a plain payload: schema defaults, a
store-assigned `_id`, both timestamps set to the current time. -/
def newDocument (s : Store) (payload : TaskBody) (now : Nat) : Task :=
  { _id := s.nextId
    title := payload.title
    description := payload.description
    status := some (payload.status.getD "pending")
    projectId := payload.projectId
    assigneeId := payload.assigneeId
    dueDate := payload.dueDate
    orderIndex := payload.orderIndex
    timerSeconds := some (payload.timerSeconds.getD (.finite 0))
    userId := payload.userId
    createdAt := now
    updatedAt := now }

/-- The document `new Task(payload)` builds, before validation; `none` when a value fails
the cast. -/
def CreateBody.document (s : Store) (payload : CreateBody) (now : Nat) : Option Task :=
  match payload with
  | .plain paths => some (newDocument s paths now)
  | .built doc => some { doc with _id := s.nextId, createdAt := now, updatedAt := now }
  | .invalid => none

/-- `Task.create(payload)`: build the document, run the schema validators (the only one
is the `enum` of `status`), and insert. A failed cast or validation rejects with a
validation error and writes nothing. -/
def Task.create (s : Store) (payload : CreateBody) (now : Nat) : Except String (Store × Task) :=
  match payload.document s now with
  | none => .error "ValidationError"
  | some t =>
    if enumValidator t.status then
      .ok ({ tasks := s.tasks ++ [t], nextId := s.nextId + 1 }, t)
    else
      .error "ValidationError"

/-- The `$set` a plain update object stands for: every path present in the body replaces
the stored value, and `updatedAt` is refreshed. Update validators are off unless
`runValidators` is passed, and the route does not pass it. -/
def applyUpdate (t : Task) (body : TaskBody) (now : Nat) : Task :=
  { t with
    title := body.title <|> t.title
    description := body.description <|> t.description
    status := body.status <|> t.status
    projectId := body.projectId <|> t.projectId
    assigneeId := body.assigneeId <|> t.assigneeId
    dueDate := body.dueDate <|> t.dueDate
    orderIndex := body.orderIndex <|> t.orderIndex
    timerSeconds := body.timerSeconds <|> t.timerSeconds
    userId := body.userId <|> t.userId
    updatedAt := now }

/-- The change an update body makes to the matched document, `none` when the update is
rejected. Whatever the body, `_id` is kept and `updatedAt` is refreshed. -/
def UpdateBody.change (body : UpdateBody) (now : Nat) : Option (Task → Task) :=
  match body with
  | .plain paths => some (fun t => applyUpdate t paths now)
  | .operators change => some (fun t => { change t with _id := t._id, updatedAt := now })
  | .rejected => none

/-- The change `{ $inc: { timerSeconds: d } }` makes: the stored Number grows by `d`, and a
missing one becomes `d`. -/
def incTimerSeconds (d : Num) (t : Task) : Task :=
  { t with
    timerSeconds :=
      match t.timerSeconds with
      | some x => some (Num.add x d)
      | none => some d }

/-- Modify the first document matching `p`; returns the new list and the new document. -/
def modifyFirst (p : Task → Bool) (f : Task → Task) : List Task → List Task × Option Task
  | [] => ([], none)
  | t :: ts =>
    if p t then (f t :: ts, some (f t))
    else ((modifyFirst p f ts).1.cons t, (modifyFirst p f ts).2)

/-- Remove the first document matching `p`; returns the new list and the removed one. -/
def removeFirst (p : Task → Bool) : List Task → List Task × Option Task
  | [] => ([], none)
  | t :: ts =>
    if p t then (ts, some t)
    else ((removeFirst p ts).1.cons t, (removeFirst p ts).2)

/-- The filter `{ _id: id, userId }` shared by the update and delete routes. -/
def ownedBy (id : Nat) (userId : String) (t : Task) : Bool :=
  t._id == id && t.userId == some userId

/-- `Task.findOneAndUpdate({ _id: id, userId }, body, { new: true })`: an error when the
update is rejected, otherwise the store and the updated document, if one matched. -/
def Task.findOneAndUpdate (s : Store) (id : Nat) (userId : String) (body : UpdateBody)
    (now : Nat) : Except String (Store × Option Task) :=
  match body.change now with
  | none => .error "CastError"
  | some f =>
    .ok ({ s with tasks := (modifyFirst (ownedBy id userId) f s.tasks).1 },
      (modifyFirst (ownedBy id userId) f s.tasks).2)

/-- `Task.findOneAndDelete({ _id: id, userId })`. -/
def Task.findOneAndDelete (s : Store) (id : Nat) (userId : String) : Store × Option Task :=
  let r := removeFirst (ownedBy id userId) s.tasks
  ({ s with tasks := r.1 }, r.2)

/-- The order of `sort({ createdAt: 1 })`. -/
def byCreatedAt (a b : Task) : Prop :=
  a.createdAt ≤ b.createdAt

instance byCreatedAt_decidable : DecidableRel byCreatedAt :=
  fun a b => inferInstanceAs (Decidable (a.createdAt ≤ b.createdAt))

instance byCreatedAt_total : IsTotal Task byCreatedAt :=
  ⟨fun a b => Nat.le_total a.createdAt b.createdAt⟩

instance byCreatedAt_trans : IsTrans Task byCreatedAt :=
  ⟨fun _ _ _ hab hbc => Nat.le_trans hab hbc⟩

/-- `Task.find({ userId }).sort({ createdAt: 1 })`. -/
def Task.find (s : Store) (userId : String) : List Task :=
  (s.tasks.filter (fun t => t.userId == some userId)).insertionSort byCreatedAt

/-! ## Authentication -/

/-- JavaScript `chars.split(sep)` on the characters of a string. -/
def splitChars (sep : Char) : List Char → List (List Char)
  | [] => [[]]
  | c :: cs =>
    if c = sep then [] :: splitChars sep cs
    else
      match splitChars sep cs with
      | [] => [[c]]
      | w :: ws => (c :: w) :: ws

/-- JavaScript `s.split(' ')`. -/
def splitSpace (s : String) : List String :=
  (splitChars ' ' s.data).map String.mk

/-- JavaScript `header && header.split(' ')[1]`, keeping only a truthy result. -/
def bearerToken (header : Option String) : Option String :=
  match header with
  | none => none
  | some h =>
    if h = "" then none
    else
      match (splitSpace h)[1]? with
      | none => none
      | some tok => if tok = "" then none else some tok

/-- The HTTP `authMiddleware`: `.ok decoded` stands for `req.user = decoded; next()`,
`.error r` for the response sent instead of calling `next`. -/
def authMiddleware (verify : String → Option Decoded) (authorization : Option String) :
    Except Response Decoded :=
  match bearerToken authorization with
  | none => .error { status := 401, body := .error "No token provided" }
  | some token =>
    match verify token with
    | some decoded => .ok decoded
    | none => .error { status := 401, body := .error "Invalid token" }

/-- The `auth` object of a socket handshake. -/
structure HandshakeAuth where
  token : Option String
deriving DecidableEq, Repr

/-- The headers of a socket handshake. -/
structure HandshakeHeaders where
  authorization : Option String
deriving DecidableEq, Repr

/-- The part of `socket.handshake` the server reads. -/
structure Handshake where
  auth : Option HandshakeAuth
  headers : Option HandshakeHeaders
deriving DecidableEq, Repr

/-- A server-side socket. -/
structure Socket where
  id : String
  handshake : Handshake
  userId : Option String
  rooms : List String
deriving DecidableEq, Repr

/-- The token expression of the socket middleware:
`handshake.auth?.token || (headers && headers.authorization && authorization.split(' ')[1])`,
keeping only a truthy result. -/
def handshakeToken (h : Handshake) : Option String :=
  match h.auth.bind (fun a => a.token) with
  | some t =>
    if t = "" then bearerToken (h.headers.bind (fun hs => hs.authorization)) else some t
  | none => bearerToken (h.headers.bind (fun hs => hs.authorization))

/-- The socket middleware passed to `io.use`: `.ok socket` stands for `next()` after
`socket.userId = decoded.id`, `.error msg` for `next(new Error(msg))`. -/
def ioUse (verify : String → Option Decoded) (socket : Socket) : Except String Socket :=
  match handshakeToken socket.handshake with
  | none => .error "Authentication error: no token"
  | some token =>
    match verify token with
    | some decoded => .ok { socket with userId := some decoded.id }
    | none => .error "Authentication error: invalid token"

/-- JavaScript `'user_' + userId`. -/
def userRoom (userId : Option String) : String :=
  "user_" ++ userId.getD "undefined"

/-- The `connection` listener: `socket.join('user_' + socket.userId)`. -/
def onConnection (socket : Socket) : Socket :=
  { socket with rooms := userRoom socket.userId :: socket.rooms }

/-- A connection attempt: the middleware runs first, and the `connection` listener runs
only when the middleware called `next()` without an error. -/
def connect (verify : String → Option Decoded) (socket : Socket) : Except String Socket :=
  (ioUse verify socket).map onConnection

/-- A socket as the server creates it for an incoming handshake. -/
def newSocket (id : String) (h : Handshake) : Socket :=
  { id := id, handshake := h, userId := none, rooms := [] }

/-! ## Task routes -/

/-- Handler of `GET /api/tasks`. -/
def getTasks (s : Store) (user : Decoded) : Outcome :=
  { store := s
    effects := [.respond { status := 200, body := .tasks (Task.find s user.id) }] }

/-- Handler of `POST /api/tasks`. A rejected `Task.create` leaves the handler before any
emit or response. -/
def postTasks (s : Store) (user : Decoded) (body : CreateBody) (now : Nat) : Outcome :=
  match Task.create s (body.withUserId user.id) now with
  | .error _ => { store := s, effects := [] }
  | .ok (s', t) =>
    { store := s'
      effects :=
        [ .db (.inserted t),
          .emit (userRoom (some user.id)) (.taskCreated t),
          .respond { status := 200, body := .task t } ] }

/-- Handler of `PUT /api/tasks/:id`. A rejected `findOneAndUpdate` leaves the handler
before any emit or response. -/
def putTasks (s : Store) (user : Decoded) (id : Nat) (body : UpdateBody) (now : Nat) :
    Outcome :=
  match Task.findOneAndUpdate s id user.id body now with
  | .error _ => { store := s, effects := [] }
  | .ok (s', none) =>
    { store := s', effects := [.respond { status := 404, body := .error "Task not found" }] }
  | .ok (s', some updated) =>
    { store := s'
      effects :=
        [ .db (.updated updated),
          .emit (userRoom (some user.id)) (.taskUpdated updated),
          .respond { status := 200, body := .task updated } ] }

/-- Handler of `DELETE /api/tasks/:id`. -/
def deleteTasks (s : Store) (user : Decoded) (id : Nat) : Outcome :=
  match Task.findOneAndDelete s id user.id with
  | (s', none) =>
    { store := s', effects := [.respond { status := 404, body := .error "Task not found" }] }
  | (s', some removed) =>
    { store := s'
      effects :=
        [ .db (.removed removed),
          .emit (userRoom (some user.id)) (.taskDeleted removed._id),
          .respond { status := 200, body := .success } ] }

/-- A route protected by `authMiddleware`: the handler runs only after `next()`. -/
def protect (verify : String → Option Decoded) (authorization : Option String) (s : Store)
    (handler : Decoded → Outcome) : Outcome :=
  match authMiddleware verify authorization with
  | .error r => { store := s, effects := [.respond r] }
  | .ok user => handler user

/-- The emits of a trace, in order. -/
def emits : List Effect → List (String × Event)
  | [] => []
  | .emit room ev :: es => (room, ev) :: emits es
  | _ :: es => emits es

/-- The events `io.to(room).emit` delivers to a socket: those sent to a room it is in. -/
def received (socket : Socket) (effects : List Effect) : List Event :=
  ((emits effects).filter (fun e => socket.rooms.contains e.1)).map (fun e => e.2)

/-! ## Client: the listeners and the timer of `App.jsx` -/

/-- A task as it arrives at the client, through `JSON.stringify`. -/
def Task.toJSON (t : Task) : Task :=
  { t with
    orderIndex := t.orderIndex.bind Num.toJSON
    timerSeconds := t.timerSeconds.bind Num.toJSON }

/-- An event as it arrives at the client. -/
def Event.toJSON : Event → Event
  | .taskCreated t => .taskCreated t.toJSON
  | .taskUpdated t => .taskUpdated t.toJSON
  | .taskDeleted id => .taskDeleted id

/-- The state of the `App` component together with the server-side socket of its
connection (`none` while the connection is not established). -/
structure App where
  token : String
  tasks : List Task
  timerTask : Option Nat
  seconds : Num
  socket : Option Socket
deriving DecidableEq, Repr

/-- Listener of `taskCreated`. -/
def onTaskCreated (prev : List Task) (t : Task) : List Task :=
  prev ++ [t]

/-- Listener of `taskUpdated`. -/
def onTaskUpdated (prev : List Task) (u : Task) : List Task :=
  prev.map (fun t => if t._id = u._id then u else t)

/-- Listener of `taskDeleted`. -/
def onTaskDeleted (prev : List Task) (id : Nat) : List Task :=
  prev.filter (fun t => t._id != id)

/-- Dispatch of one socket event to its listener. -/
def onEvent (prev : List Task) : Event → List Task
  | .taskCreated t => onTaskCreated prev t
  | .taskUpdated u => onTaskUpdated prev u
  | .taskDeleted id => onTaskDeleted prev id

/-- The client after the server ran a handler: its listeners run on every event that
reached its socket. -/
def App.listen (app : App) (effects : List Effect) : App :=
  match app.socket with
  | none => app
  | some socket =>
    { app with
      tasks := ((received socket effects).map Event.toJSON).foldl onEvent app.tasks }

/-- The client `startTimer`. -/
def startTimer (app : App) (taskId : Nat) : App :=
  { app with timerTask := some taskId }

/-- One firing of the one-second interval, which runs while a timer task is set:
`setSeconds(s => s + 1)`. -/
def tick (app : App) : App :=
  match app.timerTask with
  | some _ => { app with seconds := Num.add app.seconds (.finite 1) }
  | none => app

/-- The timer value the client sends: `(t?.timerSeconds || 0) + seconds`. -/
def newSeconds (app : App) (taskId : Nat) : Num :=
  Num.add (orZero ((app.tasks.find? (fun x => x._id == taskId)).bind (fun t => t.timerSeconds)))
    app.seconds

/-- The body `{ timerSeconds: newSeconds }` as it reaches the server: a Number that
`JSON.stringify` sends as `null` sets the path to `null`. -/
def timerBody (n : Num) : UpdateBody :=
  match n.toJSON with
  | some v => .plain { timerSeconds := some v }
  | none => .operators (fun t => { t with timerSeconds := none })

/-- The client `stopTimer` against the server: the PUT request goes through
`authMiddleware` with the header `Bearer <token>`, and the resulting broadcast reaches
the client through its socket. -/
def stopTimer (verify : String → Option Decoded) (s : Store) (app : App) (taskId : Nat)
    (now : Nat) : Store × App :=
  let out := protect verify (some ("Bearer " ++ app.token)) s
    (fun user => putTasks s user taskId (timerBody (newSeconds app taskId)) now)
  (out.store, { app.listen out.effects with timerTask := none, seconds := .finite 0 })

/-- Accumulating `d` seconds on a task from the client: start the timer, let the interval
fire `d` times, stop the timer. -/
def accumulate (verify : String → Option Decoded) (s : Store) (app : App) (taskId : Nat)
    (d : Nat) (now : Nat) : Store × App :=
  stopTimer verify s (tick^[d] (startTimer app taskId)) taskId now

/-! ## Specification predicates -/

/-- Whether a middleware let the request or the handshake through. -/
def accepts {ε α : Type} : Except ε α → Bool
  | .ok _ => true
  | .error _ => false

/-- The owner the HTTP channel resolves for an Authorization header. -/
def httpOwner (verify : String → Option Decoded) (authorization : Option String) :
    Option String :=
  match authMiddleware verify authorization with
  | .ok decoded => some decoded.id
  | .error _ => none

/-- The owner the socket channel resolves for a handshake. -/
def socketOwner (verify : String → Option Decoded) (sid : String) (h : Handshake) :
    Option String :=
  match connect verify (newSocket sid h) with
  | .ok session => session.userId
  | .error _ => none

/-- The response a handler sent, if it sent one. -/
def response : List Effect → Option Response
  | [] => none
  | .respond r :: _ => some r
  | _ :: es => response es

/-- No emit of the trace comes before a completed store write: `written` tells whether a
write has already been seen. -/
def emitsAfterWrite (written : Bool) : List Effect → Bool
  | [] => true
  | .db _ :: es => emitsAfterWrite true es
  | .emit _ _ :: es => written && emitsAfterWrite written es
  | .respond _ :: es => emitsAfterWrite written es

/-- Store invariant the database maintains: identifiers are unique and were all handed
out before `nextId`. -/
def Store.WF (s : Store) : Prop :=
  (s.tasks.map (fun t => t._id)).Nodup ∧ ∀ t ∈ s.tasks, t._id < s.nextId

/-- The not-found response of the update and delete routes. -/
def notFound : Response :=
  { status := 404, body := .error "Task not found" }

/-- The timer after a request is below the timer before it. -/
def lowered (before after : Option Num) : Prop :=
  ∃ b a, before = some b ∧ after = some a ∧ Num.lt a b

/-! ## Lemmas on the store primitives -/

theorem userRoom_injective {a b : String} (h : userRoom (some a) = userRoom (some b)) :
    a = b := by
  simp only [userRoom, Option.getD_some] at h
  have h2 := congrArg String.data h
  simp only [String.data_append] at h2
  exact String.ext (List.append_cancel_left h2)

theorem modifyFirst_snd (p : Task → Bool) (f : Task → Task) (l : List Task) :
    (modifyFirst p f l).2 = (l.find? p).map f := by
  induction l with
  | nil => rfl
  | cons t ts ih =>
    by_cases h : p t = true
    · simp [modifyFirst, h]
    · simp [modifyFirst, h, ih]

theorem modifyFirst_fst_of_none (p : Task → Bool) (f : Task → Task) (l : List Task)
    (h : l.find? p = none) : (modifyFirst p f l).1 = l := by
  induction l with
  | nil => rfl
  | cons t ts ih =>
    by_cases ht : p t = true
    · simp [List.find?, ht] at h
    · have h2 : ts.find? p = none := by simpa [List.find?, ht] using h
      simp [modifyFirst, ht, ih h2]

theorem modifyFirst_mem (p : Task → Bool) (f : Task → Task) (l : List Task) (t : Task)
    (h : l.find? p = some t) : f t ∈ (modifyFirst p f l).1 := by
  induction l with
  | nil => simp at h
  | cons x xs ih =>
    by_cases hx : p x = true
    · have : x = t := by simpa [List.find?, hx] using h
      subst this
      simp [modifyFirst, hx]
    · have h2 : xs.find? p = some t := by simpa [List.find?, hx] using h
      simp [modifyFirst, hx, ih h2]

theorem modifyFirst_find (p : Task → Bool) (f : Task → Task) (l : List Task) (t : Task)
    (h : l.find? p = some t) (hp : p (f t) = true) :
    (modifyFirst p f l).1.find? p = some (f t) := by
  induction l with
  | nil => simp at h
  | cons x xs ih =>
    by_cases hx : p x = true
    · have : x = t := by simpa [List.find?, hx] using h
      subst this
      simp [modifyFirst, hx, List.find?, hp]
    · have h2 : xs.find? p = some t := by simpa [List.find?, hx] using h
      simp [modifyFirst, hx, List.find?, ih h2]

theorem modifyFirst_ids (p : Task → Bool) (f : Task → Task) (l : List Task)
    (hf : ∀ t, (f t)._id = t._id) :
    (modifyFirst p f l).1.map (fun t => t._id) = l.map (fun t => t._id) := by
  induction l with
  | nil => rfl
  | cons x xs ih =>
    by_cases hx : p x = true
    · simp [modifyFirst, hx, hf]
    · simp [modifyFirst, hx, ih]

theorem removeFirst_snd (p : Task → Bool) (l : List Task) :
    (removeFirst p l).2 = l.find? p := by
  induction l with
  | nil => rfl
  | cons t ts ih =>
    by_cases h : p t = true
    · simp [removeFirst, h]
    · simp [removeFirst, h, ih]

theorem removeFirst_fst_of_none (p : Task → Bool) (l : List Task)
    (h : l.find? p = none) : (removeFirst p l).1 = l := by
  induction l with
  | nil => rfl
  | cons t ts ih =>
    by_cases ht : p t = true
    · simp [List.find?, ht] at h
    · have h2 : ts.find? p = none := by simpa [List.find?, ht] using h
      simp [removeFirst, ht, ih h2]

theorem removeFirst_perm (p : Task → Bool) (l : List Task) (t : Task)
    (h : l.find? p = some t) : l.Perm (t :: (removeFirst p l).1) := by
  induction l with
  | nil => simp at h
  | cons x xs ih =>
    by_cases hx : p x = true
    · have : x = t := by simpa [List.find?, hx] using h
      subst this
      simp [removeFirst, hx]
    · have h2 : xs.find? p = some t := by simpa [List.find?, hx] using h
      simp only [removeFirst, hx, Bool.false_eq_true, if_false, List.cons]
      exact ((ih h2).cons x).trans (List.Perm.swap t x _)

theorem find_none_of_not_owned (s : Store) (id : Nat) (userId : String)
    (h : ∀ t ∈ s.tasks, t._id = id → t.userId ≠ some userId) :
    s.tasks.find? (ownedBy id userId) = none := by
  rw [List.find?_eq_none]
  intro t ht hp
  simp only [ownedBy, Bool.and_eq_true, beq_iff_eq] at hp
  exact h t ht hp.1 hp.2

/-! ## Lemmas on the handlers -/

theorem change_id (body : UpdateBody) (now : Nat) (f : Task → Task)
    (h : body.change now = some f) (t : Task) : (f t)._id = t._id := by
  cases body with
  | plain paths =>
    simp only [UpdateBody.change, Option.some.injEq] at h
    subst h
    rfl
  | operators change =>
    simp only [UpdateBody.change, Option.some.injEq] at h
    subst h
    rfl
  | rejected => simp [UpdateBody.change] at h

theorem putTasks_of_rejected (s : Store) (user : Decoded) (id : Nat) (body : UpdateBody)
    (now : Nat) (h : body.change now = none) :
    putTasks s user id body now = { store := s, effects := [] } := by
  simp only [putTasks, Task.findOneAndUpdate, h]

theorem putTasks_of_none (s : Store) (user : Decoded) (id : Nat) (body : UpdateBody)
    (now : Nat) (f : Task → Task) (hc : body.change now = some f)
    (h : s.tasks.find? (ownedBy id user.id) = none) :
    putTasks s user id body now = { store := s, effects := [.respond notFound] } := by
  have h1 := modifyFirst_snd (ownedBy id user.id) f s.tasks
  have h2 := modifyFirst_fst_of_none (ownedBy id user.id) f s.tasks h
  rw [h] at h1
  simp only [putTasks, Task.findOneAndUpdate, hc, h1, h2, Option.map_none', notFound]

theorem putTasks_of_some (s : Store) (user : Decoded) (id : Nat) (body : UpdateBody)
    (now : Nat) (f : Task → Task) (hc : body.change now = some f) (t : Task)
    (h : s.tasks.find? (ownedBy id user.id) = some t) :
    putTasks s user id body now =
      { store := { s with tasks := (modifyFirst (ownedBy id user.id) f s.tasks).1 }
        effects :=
          [ .db (.updated (f t)),
            .emit (userRoom (some user.id)) (.taskUpdated (f t)),
            .respond { status := 200, body := .task (f t) } ] } := by
  have h1 := modifyFirst_snd (ownedBy id user.id) f s.tasks
  rw [h] at h1
  simp only [putTasks, Task.findOneAndUpdate, hc, h1, Option.map_some']

theorem deleteTasks_of_none (s : Store) (user : Decoded) (id : Nat)
    (h : s.tasks.find? (ownedBy id user.id) = none) :
    deleteTasks s user id = { store := s, effects := [.respond notFound] } := by
  have h1 := removeFirst_snd (ownedBy id user.id) s.tasks
  have h2 := removeFirst_fst_of_none (ownedBy id user.id) s.tasks h
  rw [h] at h1
  simp only [deleteTasks, Task.findOneAndDelete, h1, h2, notFound]

theorem deleteTasks_of_some (s : Store) (user : Decoded) (id : Nat) (t : Task)
    (h : s.tasks.find? (ownedBy id user.id) = some t) :
    deleteTasks s user id =
      { store := (Task.findOneAndDelete s id user.id).1
        effects :=
          [ .db (.removed t),
            .emit (userRoom (some user.id)) (.taskDeleted t._id),
            .respond { status := 200, body := .success } ] } := by
  have h1 := removeFirst_snd (ownedBy id user.id) s.tasks
  rw [h] at h1
  simp only [deleteTasks, Task.findOneAndDelete, h1]

theorem document_facts (s : Store) (user : Decoded) (body : CreateBody) (now : Nat)
    (t : Task) (h : (body.withUserId user.id).document s now = some t) :
    t._id = s.nextId ∧ t.userId = some user.id ∧ t.createdAt = now := by
  cases body with
  | plain paths =>
    simp only [CreateBody.withUserId, CreateBody.document, Option.some.injEq] at h
    subst h
    exact ⟨rfl, rfl, rfl⟩
  | built doc =>
    simp only [CreateBody.withUserId, CreateBody.document, Option.some.injEq] at h
    subst h
    exact ⟨rfl, rfl, rfl⟩
  | invalid => simp [CreateBody.withUserId, CreateBody.document] at h

theorem postTasks_of_document (s : Store) (user : Decoded) (body : CreateBody) (now : Nat)
    (t : Task) (hd : (body.withUserId user.id).document s now = some t)
    (hv : enumValidator t.status = true) :
    postTasks s user body now =
      { store := { tasks := s.tasks ++ [t], nextId := s.nextId + 1 }
        effects :=
          [ .db (.inserted t),
            .emit (userRoom (some user.id)) (.taskCreated t),
            .respond { status := 200, body := .task t } ] } := by
  simp only [postTasks, Task.create, hd, hv, if_true]

theorem postTasks_of_failed (s : Store) (user : Decoded) (body : CreateBody) (now : Nat)
    (e : String) (h : Task.create s (body.withUserId user.id) now = .error e) :
    postTasks s user body now = { store := s, effects := [] } := by
  simp only [postTasks, h]

theorem create_error (s : Store) (payload : CreateBody) (now : Nat) (e : String)
    (h : Task.create s payload now = .error e) : e = "ValidationError" := by
  unfold Task.create at h
  split at h
  · simp only [Except.error.injEq] at h
    exact h.symm
  · split at h
    · simp at h
    · simp only [Except.error.injEq] at h
      exact h.symm

/-- A create either is rejected and does nothing, or inserts one document with a fresh
identifier and the owner of the request, emits it and answers with it. -/
theorem postTasks_cases (s : Store) (user : Decoded) (body : CreateBody) (now : Nat) :
    ((∃ e, Task.create s (body.withUserId user.id) now = .error e) ∧
        postTasks s user body now = { store := s, effects := [] }) ∨
      ∃ t, t._id = s.nextId ∧ t.userId = some user.id ∧
        (body.withUserId user.id).document s now = some t ∧
        enumValidator t.status = true ∧
        postTasks s user body now =
          { store := { tasks := s.tasks ++ [t], nextId := s.nextId + 1 }
            effects :=
              [ .db (.inserted t),
                .emit (userRoom (some user.id)) (.taskCreated t),
                .respond { status := 200, body := .task t } ] } := by
  cases hd : (body.withUserId user.id).document s now with
  | none =>
    have he : Task.create s (body.withUserId user.id) now = .error "ValidationError" := by
      simp only [Task.create, hd]
    exact Or.inl ⟨⟨_, he⟩, postTasks_of_failed s user body now _ he⟩
  | some t =>
    by_cases hv : enumValidator t.status = true
    · obtain ⟨h1, h2, _⟩ := document_facts s user body now t hd
      exact Or.inr ⟨t, h1, h2, rfl, hv, postTasks_of_document s user body now t hd hv⟩
    · have he : Task.create s (body.withUserId user.id) now = .error "ValidationError" := by
        simp only [Task.create, hd, hv, Bool.false_eq_true, if_false]
      exact Or.inl ⟨⟨_, he⟩, postTasks_of_failed s user body now _ he⟩

theorem postTasks_of_valid (s : Store) (user : Decoded) (body : TaskBody) (now : Nat)
    (h : body.status.getD "pending" ∈ statusEnum) :
    postTasks s user (.plain body) now =
      { store :=
          { tasks := s.tasks ++ [newDocument s (withUserId body user.id) now]
            nextId := s.nextId + 1 }
        effects :=
          [ .db (.inserted (newDocument s (withUserId body user.id) now)),
            .emit (userRoom (some user.id))
              (.taskCreated (newDocument s (withUserId body user.id) now)),
            .respond
              { status := 200, body := .task (newDocument s (withUserId body user.id) now) } ] } := by
  apply postTasks_of_document s user (.plain body) now _ rfl
  simpa [newDocument, withUserId, enumValidator] using h

theorem postTasks_of_invalid (s : Store) (user : Decoded) (body : TaskBody) (now : Nat)
    (h : body.status.getD "pending" ∉ statusEnum) :
    postTasks s user (.plain body) now = { store := s, effects := [] } := by
  apply postTasks_of_failed s user (.plain body) now "ValidationError"
  have hv : enumValidator (newDocument s (withUserId body user.id) now).status = false := by
    simpa [newDocument, withUserId, enumValidator] using h
  simp only [Task.create, CreateBody.withUserId, CreateBody.document, hv, Bool.false_eq_true,
    if_false]

/-- An update is rejected and does nothing, or matches nothing and answers 404, or changes
the first matching document, emits it and answers with it. -/
theorem putTasks_cases (s : Store) (user : Decoded) (id : Nat) (body : UpdateBody)
    (now : Nat) :
    (body.change now = none ∧ putTasks s user id body now = { store := s, effects := [] }) ∨
      (s.tasks.find? (ownedBy id user.id) = none ∧
        putTasks s user id body now = { store := s, effects := [.respond notFound] }) ∨
      ∃ f t, body.change now = some f ∧ s.tasks.find? (ownedBy id user.id) = some t ∧
        putTasks s user id body now =
          { store := { s with tasks := (modifyFirst (ownedBy id user.id) f s.tasks).1 }
            effects :=
              [ .db (.updated (f t)),
                .emit (userRoom (some user.id)) (.taskUpdated (f t)),
                .respond { status := 200, body := .task (f t) } ] } := by
  cases hc : body.change now with
  | none => exact Or.inl ⟨rfl, putTasks_of_rejected s user id body now hc⟩
  | some f =>
    cases hf : s.tasks.find? (ownedBy id user.id) with
    | none => exact Or.inr (Or.inl ⟨rfl, putTasks_of_none s user id body now f hc hf⟩)
    | some t =>
      exact Or.inr (Or.inr ⟨f, t, rfl, rfl, putTasks_of_some s user id body now f hc t hf⟩)

theorem connect_rooms (verify : String → Option Decoded) (sid : String) (h : Handshake)
    (session : Socket) (hconn : connect verify (newSocket sid h) = .ok session) :
    session.rooms = [userRoom session.userId] ∧
      ∃ token decoded, handshakeToken h = some token ∧ verify token = some decoded ∧
        session.userId = some decoded.id := by
  unfold connect ioUse at hconn
  simp only [newSocket] at hconn
  cases ht : handshakeToken h with
  | none => simp [ht, Except.map] at hconn
  | some token =>
    cases hv : verify token with
    | none => simp [ht, hv, Except.map] at hconn
    | some decoded =>
      simp only [ht, hv, Except.map, onConnection, Except.ok.injEq] at hconn
      subst hconn
      exact ⟨rfl, token, decoded, rfl, hv, rfl⟩

theorem received_of_other_room (session : Socket) (room : String) (es : List Effect)
    (hrooms : room ∉ session.rooms) (hes : ∀ e ∈ emits es, e.1 = room) :
    received session es = [] := by
  unfold received
  rw [List.map_eq_nil_iff, List.filter_eq_nil_iff]
  intro e he hc
  rw [hes e he] at hc
  exact hrooms (by simpa using hc)

theorem received_of_room (session : Socket) (room : String) (ev : Event) (w : Write)
    (r : Response) (hroom : room ∈ session.rooms) :
    received session [.db w, .emit room ev, .respond r] = [ev] := by
  simp [received, emits, hroom]

/-- The three task mutation handlers emit nothing or one event, always to the room of the
authenticated owner, and never before a completed write. -/
theorem handler_emits (s : Store) (user : Decoded) (id : Nat) (cbody : CreateBody)
    (ubody : UpdateBody) (now : Nat) (out : Outcome)
    (hout : out ∈ [postTasks s user cbody now, putTasks s user id ubody now,
      deleteTasks s user id]) :
    (emits out.effects = [] ∨ ∃ ev, emits out.effects = [(userRoom (some user.id), ev)]) ∧
      emitsAfterWrite false out.effects = true := by
  simp only [List.mem_cons, List.mem_singleton, List.not_mem_nil, or_false] at hout
  rcases hout with h | h | h
  · rcases postTasks_cases s user cbody now with ⟨_, hp⟩ | ⟨t, _, _, _, _, hp⟩
    · rw [h, hp]
      exact ⟨Or.inl rfl, rfl⟩
    · rw [h, hp]
      exact ⟨Or.inr ⟨_, rfl⟩, rfl⟩
  · rcases putTasks_cases s user id ubody now with ⟨_, hp⟩ | ⟨_, hp⟩ | ⟨f, t, _, _, hp⟩
    · rw [h, hp]
      exact ⟨Or.inl rfl, rfl⟩
    · rw [h, hp]
      exact ⟨Or.inl rfl, rfl⟩
    · rw [h, hp]
      exact ⟨Or.inr ⟨_, rfl⟩, rfl⟩
  · cases hf : s.tasks.find? (ownedBy id user.id) with
    | none =>
      rw [h, deleteTasks_of_none s user id hf]
      exact ⟨Or.inl rfl, rfl⟩
    | some t =>
      rw [h, deleteTasks_of_some s user id t hf]
      exact ⟨Or.inr ⟨_, rfl⟩, rfl⟩

theorem ownedBy_id {id : Nat} {userId : String} {t : Task} (h : ownedBy id userId t = true) :
    t._id = id ∧ t.userId = some userId := by
  simpa [ownedBy] using h

theorem removeFirst_sublist (p : Task → Bool) (l : List Task) :
    (removeFirst p l).1.Sublist l := by
  induction l with
  | nil => exact List.Sublist.refl _
  | cons x xs ih =>
    by_cases hx : p x = true
    · simp [removeFirst, hx]
    · simp only [removeFirst, hx, Bool.false_eq_true, if_false, List.cons]
      exact ih.cons₂ x

theorem find_perm (s : Store) (userId : String) :
    (Task.find s userId).Perm (s.tasks.filter (fun t => t.userId == some userId)) :=
  List.perm_insertionSort byCreatedAt _

theorem find_mem (s : Store) (userId : String) (t : Task) :
    t ∈ Task.find s userId ↔ t ∈ s.tasks ∧ t.userId = some userId := by
  rw [(find_perm s userId).mem_iff, List.mem_filter]
  simp

theorem WF_emptyStore : Store.WF { tasks := [], nextId := 0 } := by
  simp [Store.WF]

theorem WF_postTasks (s : Store) (user : Decoded) (body : CreateBody) (now : Nat)
    (hwf : s.WF) : (postTasks s user body now).store.WF := by
  rcases postTasks_cases s user body now with ⟨_, hp⟩ | ⟨t, hid, _, _, _, hp⟩
  · rw [hp]
    exact hwf
  · rw [hp]
    obtain ⟨hnd, hlt⟩ := hwf
    constructor
    · simp only [List.map_append, List.map_cons, List.map_nil]
      rw [List.nodup_append]
      refine ⟨hnd, List.nodup_singleton _, ?_⟩
      intro a ha hb
      rw [List.mem_singleton] at hb
      obtain ⟨x, hx, rfl⟩ := List.mem_map.1 ha
      have := hlt x hx
      omega
    · intro x hx
      rcases List.mem_append.1 hx with h | h
      · exact Nat.lt_succ_of_lt (hlt x h)
      · rw [List.mem_singleton] at h
        subst h
        show x._id < s.nextId + 1
        omega

theorem WF_putTasks (s : Store) (user : Decoded) (id : Nat) (body : UpdateBody) (now : Nat)
    (hwf : s.WF) : (putTasks s user id body now).store.WF := by
  rcases putTasks_cases s user id body now with ⟨_, hp⟩ | ⟨_, hp⟩ | ⟨f, t, hc, _, hp⟩
  · rw [hp]
    exact hwf
  · rw [hp]
    exact hwf
  · rw [hp]
    have hids := modifyFirst_ids (ownedBy id user.id) f s.tasks (change_id body now f hc)
    obtain ⟨hnd, hlt⟩ := hwf
    constructor
    · show (List.map (fun t => t._id) (modifyFirst (ownedBy id user.id) f s.tasks).1).Nodup
      rw [hids]
      exact hnd
    · intro x hx
      have hx1 : x ∈ (modifyFirst (ownedBy id user.id) f s.tasks).1 := hx
      have hx2 : x._id ∈ s.tasks.map (fun t => t._id) := by
        rw [← hids]
        exact List.mem_map_of_mem (fun t => t._id) hx1
      obtain ⟨y, hy, hxy⟩ := List.mem_map.1 hx2
      have := hlt y hy
      show x._id < s.nextId
      omega

theorem WF_deleteTasks (s : Store) (user : Decoded) (id : Nat) (hwf : s.WF) :
    (deleteTasks s user id).store.WF := by
  cases hf : s.tasks.find? (ownedBy id user.id) with
  | none =>
    rw [deleteTasks_of_none s user id hf]
    exact hwf
  | some t =>
    rw [deleteTasks_of_some s user id t hf]
    have hsub := removeFirst_sublist (ownedBy id user.id) s.tasks
    obtain ⟨hnd, hlt⟩ := hwf
    constructor
    · simp only [Task.findOneAndDelete]
      exact hnd.sublist (hsub.map _)
    · intro x hx
      simp only [Task.findOneAndDelete] at hx
      exact hlt x (hsub.subset hx)

theorem splitChars_of_not_mem (sep : Char) (l : List Char) (h : sep ∉ l) :
    splitChars sep l = [l] := by
  induction l with
  | nil => rfl
  | cons c cs ih =>
    have hc : c ≠ sep := fun e => h (by simp [e])
    have hcs : sep ∉ cs := fun e => h (List.mem_cons_of_mem c e)
    simp [splitChars, hc, ih hcs]

theorem bearerToken_ne_empty (header : Option String) (token : String)
    (h : bearerToken header = some token) : token ≠ "" := by
  unfold bearerToken at h
  cases header with
  | none => simp at h
  | some hd =>
    simp only at h
    split at h
    · simp at h
    · split at h
      · simp at h
      · split at h
        · simp at h
        · rename_i hne
          simp only [Option.some.injEq] at h
          rw [← h]
          exact hne

theorem bearerToken_bearer (token : String) (h1 : token ≠ "") (h2 : ' ' ∉ token.data) :
    bearerToken (some ("Bearer " ++ token)) = some token := by
  have hsplit : splitSpace ("Bearer " ++ token) = ["Bearer", token] := by
    have hd : ("Bearer " ++ token).data = 'B' :: 'e' :: 'a' :: 'r' :: 'e' :: 'r' :: ' ' ::
        token.data := by
      rw [String.data_append]
      rfl
    unfold splitSpace
    rw [hd]
    simp only [splitChars, splitChars_of_not_mem ' ' token.data h2]
    simp
  have hne : ("Bearer " ++ token) ≠ "" := by
    intro e
    have := congrArg String.data e
    rw [String.data_append] at this
    simp at this
  simp [bearerToken, hne, hsplit, h1]

theorem connect_eq (verify : String → Option Decoded) (sid : String) (h : Handshake) :
    connect verify (newSocket sid h) =
      match handshakeToken h with
      | none => .error "Authentication error: no token"
      | some token =>
        match verify token with
        | some decoded =>
          .ok { id := sid, handshake := h, userId := some decoded.id
                rooms := [userRoom (some decoded.id)] }
        | none => .error "Authentication error: invalid token" := by
  unfold connect ioUse
  simp only [newSocket]
  cases handshakeToken h with
  | none => rfl
  | some token =>
    cases hv : verify token with
    | none => simp [hv, Except.map]
    | some decoded => simp [hv, Except.map, onConnection]

theorem handshakeToken_auth (token : String) (headers : Option HandshakeHeaders)
    (h : token ≠ "") :
    handshakeToken { auth := some { token := some token }, headers := headers } = some token := by
  simp [handshakeToken, h]

theorem handshakeToken_header (authorization : Option String) :
    handshakeToken { auth := none, headers := some { authorization := authorization } }
      = bearerToken authorization := by
  simp [handshakeToken]

/-- With the token the HTTP middleware takes from a header, a handshake that carries that
token in `auth.token`, or carries the header itself, is treated as the request is. -/
theorem channels_agree (verify : String → Option Decoded) (authorization : Option String)
    (sid : String) (h : Handshake)
    (hh : handshakeToken h = bearerToken authorization) :
    accepts (connect verify (newSocket sid h)) = accepts (authMiddleware verify authorization) ∧
      socketOwner verify sid h = httpOwner verify authorization := by
  unfold socketOwner httpOwner
  rw [connect_eq, hh]
  unfold authMiddleware
  cases bearerToken authorization with
  | none => exact ⟨rfl, rfl⟩
  | some token =>
    cases hv : verify token with
    | none => simp [hv, accepts]
    | some decoded => simp [hv, accepts]

/-! ## Lemmas on Numbers: integers below 2^53 add exactly -/

theorem halfEven_natCast (k : ℕ) : halfEven (k : ℚ) = k := by
  simp [halfEven]

theorem Num.ofRat_intCast (z : ℤ) (h : z.natAbs < 2 ^ 53) :
    Num.ofRat (z : ℚ) = .finite (z : ℚ) := by
  by_cases hz : z = 0
  · simp [Num.ofRat, hz]
  have hq : (z : ℚ) ≠ 0 := by exact_mod_cast hz
  have habs : |(z : ℚ)| = (z.natAbs : ℚ) := by
    rw [← Int.cast_abs, ← Int.natCast_natAbs, Int.cast_natCast]
  have hn0 : z.natAbs ≠ 0 := by simpa using hz
  have hlog : Int.log 2 (z.natAbs : ℚ) = (Nat.log 2 z.natAbs : ℤ) := Int.log_natCast 2 _
  have hlt : Nat.log 2 z.natAbs < 53 := Nat.log_lt_of_lt_pow hn0 h
  have hulp : ulpExponent (z.natAbs : ℚ) = -((52 - Nat.log 2 z.natAbs : ℕ) : ℤ) := by
    unfold ulpExponent
    rw [hlog]
    omega
  have hscaled : (z.natAbs : ℚ) / 2 ^ ulpExponent (z.natAbs : ℚ)
      = ((z.natAbs * 2 ^ (52 - Nat.log 2 z.natAbs) : ℕ) : ℚ) := by
    rw [hulp, zpow_neg, zpow_natCast]
    push_cast
    field_simp
  have hr : (halfEven ((z.natAbs : ℚ) / 2 ^ ulpExponent (z.natAbs : ℚ)) : ℚ)
      * 2 ^ ulpExponent (z.natAbs : ℚ) = (z.natAbs : ℚ) := by
    rw [hscaled, halfEven_natCast, hulp, zpow_neg, zpow_natCast]
    push_cast
    field_simp
  have hbig : ¬ ((2 : ℚ) ^ 1024 ≤ (z.natAbs : ℚ)) := by
    rw [not_le]
    have h1 : (z.natAbs : ℚ) < 2 ^ 53 := by exact_mod_cast h
    have h2 : (2 : ℚ) ^ 53 < 2 ^ 1024 := by norm_num
    exact h1.trans h2
  simp only [Num.ofRat, hq, if_false, habs, hr, hbig]
  congr 1
  by_cases hneg : (z : ℚ) < 0
  · simp only [hneg, if_true]
    have : z < 0 := by exact_mod_cast hneg
    rw [← Int.cast_natCast, Int.ofNat_natAbs_of_nonpos this.le]
    simp
  · simp only [hneg, if_false]
    have : 0 ≤ z := by
      have := not_lt.1 hneg
      exact_mod_cast this
    rw [← Int.cast_natCast, Int.natAbs_of_nonneg this]

theorem Num.add_intCast (a b : ℤ) (h : (a + b).natAbs < 2 ^ 53) :
    Num.add (.finite (a : ℚ)) (.finite (b : ℚ)) = .finite ((a + b : ℤ) : ℚ) := by
  have := Num.ofRat_intCast (a + b) h
  simp only [Num.add]
  rw [← this]
  push_cast
  rfl

theorem Num.lt_irrefl (a : Num) : ¬ Num.lt a a := by
  cases a with
  | finite q => simp [Num.lt]
  | nan => simp [Num.lt]
  | inf negative => cases negative <;> simp [Num.lt]

/-- Above 2^53 the addition of Numbers is no longer exact: `2^53 + 1` is `2^53`. -/
theorem add_rounds_above_two_pow_53 :
    Num.add (.finite (2 ^ 53)) (.finite 1) = .finite (2 ^ 53) := by
  have hlog : Int.log 2 ((2 : ℚ) ^ 53 + 1) = 53 := by
    have h1 : ((2 : ℚ) ^ 53 + 1) = ((2 ^ 53 + 1 : ℕ) : ℚ) := by norm_num
    rw [h1, Int.log_natCast]
    have : Nat.log 2 (2 ^ 53 + 1) = 53 :=
      Nat.log_eq_of_pow_le_of_lt_pow (by norm_num) (by norm_num)
    rw [this]
    rfl
  have hulp : ulpExponent (|(2 : ℚ) ^ 53 + 1|) = 1 := by
    have habs : |(2 : ℚ) ^ 53 + 1| = 2 ^ 53 + 1 := abs_of_pos (by positivity)
    rw [habs]
    unfold ulpExponent
    rw [hlog]
    rfl
  have hfloor : ⌊((2 : ℚ) ^ 53 + 1) / 2⌋₊ = 2 ^ 52 := by
    rw [Nat.floor_eq_iff (by positivity)]
    constructor <;> norm_num
  have hhalf : halfEven (((2 : ℚ) ^ 53 + 1) / 2) = 2 ^ 52 := by
    unfold halfEven
    rw [hfloor]
    norm_num
  have habs : |(2 : ℚ) ^ 53 + 1| = 2 ^ 53 + 1 := abs_of_pos (by positivity)
  have hq : ((2 : ℚ) ^ 53 + 1) ≠ 0 := by positivity
  simp only [Num.add, Num.ofRat, hq, if_false, hulp, zpow_one]
  rw [habs, hhalf]
  norm_num

/-! ## Lemmas on the client -/

theorem tick_iterate (app : App) (taskId : Nat) (d : Nat) (hs : app.seconds = .finite 0)
    (hb : d < 2 ^ 53) :
    tick^[d] (startTimer app taskId) =
      { app with timerTask := some taskId, seconds := .finite ((d : ℤ) : ℚ) } := by
  induction d with
  | zero =>
    simp only [Function.iterate_zero, id_eq, startTimer, Nat.cast_zero, Int.cast_zero, ← hs]
  | succ n ih =>
    rw [Function.iterate_succ_apply', ih (by omega)]
    have hadd := Num.add_intCast (n : ℤ) 1 (by omega)
    simp only [Int.cast_one] at hadd
    simp only [tick, hadd]
    push_cast
    rfl

theorem onTaskUpdated_find (tasks : List Task) (u k : Task)
    (h : tasks.find? (fun x => x._id == u._id) = some k) :
    (onTaskUpdated tasks u).find? (fun x => x._id == u._id) = some u := by
  induction tasks with
  | nil => simp at h
  | cons x xs ih =>
    by_cases hx : x._id = u._id
    · simp [onTaskUpdated, hx]
    · have hb : (x._id == u._id) = false := by simpa using hx
      have h2 : xs.find? (fun x => x._id == u._id) = some k := by
        simpa only [List.find?_cons, hb] using h
      have ih2 := ih h2
      simp only [onTaskUpdated] at ih2
      simp only [onTaskUpdated, List.map_cons, hx, if_false, List.find?_cons, hb, ih2]

/-- What one `stopTimer` sends: the known integer timer plus the seconds counted. -/
theorem newSeconds_known (app : App) (id : Nat) (k : Task) (T : ℤ) (n : ℕ)
    (hknown : app.tasks.find? (fun x => x._id == id) = some k)
    (hk : k.timerSeconds = some (.finite (T : ℚ)))
    (hsec : app.seconds = .finite ((n : ℤ) : ℚ))
    (hb : T.natAbs + n < 2 ^ 53) :
    newSeconds app id = .finite ((T + n : ℤ) : ℚ) := by
  have hadd : Num.add (.finite (T : ℚ)) (.finite ((n : ℤ) : ℚ))
      = .finite ((T + n : ℤ) : ℚ) := Num.add_intCast T n (by omega)
  simp only [newSeconds, hknown, Option.bind, hk, orZero, hsec]
  exact hadd

/-- One `stopTimer` of a client that knows an integer timer for the task: the stored timer
becomes the known timer plus the seconds the client counted. -/
theorem stopTimer_store (verify : String → Option Decoded) (s : Store) (app : App)
    (user : Decoded) (id : Nat) (now : Nat) (t k : Task) (T : ℤ) (n : ℕ)
    (hauth : authMiddleware verify (some ("Bearer " ++ app.token)) = .ok user)
    (hstore : s.tasks.find? (ownedBy id user.id) = some t)
    (hknown : app.tasks.find? (fun x => x._id == id) = some k)
    (hk : k.timerSeconds = some (.finite (T : ℚ)))
    (hsec : app.seconds = .finite ((n : ℤ) : ℚ))
    (hb : T.natAbs + n < 2 ^ 53) :
    ∃ u, u._id = id ∧ u.timerSeconds = some (.finite ((T + n : ℤ) : ℚ)) ∧
      (stopTimer verify s app id now).1.tasks.find? (ownedBy id user.id) = some u ∧
      (stopTimer verify s app id now).2 =
        { app.listen
            [ .db (.updated u), .emit (userRoom (some user.id)) (.taskUpdated u),
              .respond { status := 200, body := .task u } ] with
          timerTask := none, seconds := .finite 0 } := by
  have hid : t._id = id := by
    have := List.find?_some hstore
    simp only [ownedBy, Bool.and_eq_true, beq_iff_eq] at this
    exact this.1
  have hnew := newSeconds_known app id k T n hknown hk hsec hb
  have hbody : timerBody (newSeconds app id)
      = .plain { timerSeconds := some (.finite ((T + n : ℤ) : ℚ)) } := by
    rw [hnew]
    rfl
  have hput := putTasks_of_some s user id
    (.plain { timerSeconds := some (.finite ((T + n : ℤ) : ℚ)) }) now _ rfl t hstore
  refine ⟨applyUpdate t { timerSeconds := some (.finite ((T + n : ℤ) : ℚ)) } now, hid, rfl,
    ?_, ?_⟩
  · simp only [stopTimer, protect, hauth, hbody, hput]
    apply modifyFirst_find _ _ _ t hstore
    have := List.find?_some hstore
    simpa [ownedBy, applyUpdate] using this
  · simp only [stopTimer, protect, hauth, hbody, hput]

/-- A client in the room of its owner learns the updated timer through the broadcast. -/
theorem listen_online (app : App) (session : Socket) (room : String) (id : Nat) (u k : Task)
    (q : ℚ)
    (hsock : app.socket = some session) (hroom : room ∈ session.rooms)
    (hknown : app.tasks.find? (fun x => x._id == id) = some k)
    (hid : u._id = id) (hu : u.timerSeconds = some (.finite q)) :
    ∃ k1, k1.timerSeconds = some (.finite q) ∧
      (app.listen [ .db (.updated u), .emit room (.taskUpdated u),
        .respond { status := 200, body := .task u } ]).tasks.find? (fun x => x._id == id)
        = some k1 := by
  refine ⟨u.toJSON, ?_, ?_⟩
  · simp [Task.toJSON, hu, Num.toJSON]
  · simp only [App.listen, hsock, received_of_room session _ _ _ _ hroom, List.map_cons,
      List.map_nil, List.foldl_cons, List.foldl_nil, onEvent, Event.toJSON]
    have hid2 : u.toJSON._id = id := hid
    have h2 := onTaskUpdated_find app.tasks u.toJSON k (by rw [hid2]; exact hknown)
    rw [hid2] at h2
    exact h2

theorem listen_offline (app : App) (effects : List Effect) (hsock : app.socket = none) :
    app.listen effects = app := by
  simp only [App.listen, hsock]

theorem listen_fields (app : App) (effects : List Effect) :
    (app.listen effects).token = app.token ∧ (app.listen effects).socket = app.socket := by
  cases hs : app.socket with
  | none => simp only [App.listen, hs, and_self]
  | some socket => simp only [App.listen, hs, and_self]

/-- Accumulating `d` seconds from an idle client that knows an integer timer `T` for the
task: the stored timer becomes `T + d`, whatever it was, and the client then hears the
broadcast of the updated record, if its socket is in the room. -/
theorem accumulate_step (verify : String → Option Decoded) (s : Store) (app : App)
    (user : Decoded) (id : Nat) (d : Nat) (now : Nat) (t k : Task) (T : ℤ)
    (hauth : authMiddleware verify (some ("Bearer " ++ app.token)) = .ok user)
    (hstore : s.tasks.find? (ownedBy id user.id) = some t)
    (hknown : app.tasks.find? (fun x => x._id == id) = some k)
    (hk : k.timerSeconds = some (.finite (T : ℚ)))
    (hidle : app.seconds = .finite 0)
    (hb : T.natAbs + d < 2 ^ 53) :
    ∃ u, u._id = id ∧ u.timerSeconds = some (.finite ((T + d : ℤ) : ℚ)) ∧
      (accumulate verify s app id d now).1.tasks.find? (ownedBy id user.id) = some u ∧
      (accumulate verify s app id d now).2 =
        { ({ app with timerTask := some id, seconds := .finite ((d : ℤ) : ℚ) } : App).listen
            [ .db (.updated u), .emit (userRoom (some user.id)) (.taskUpdated u),
              .respond { status := 200, body := .task u } ] with
          timerTask := none, seconds := .finite 0 } := by
  unfold accumulate
  rw [tick_iterate app id d hidle (by omega)]
  exact stopTimer_store verify s
    { app with timerTask := some id, seconds := .finite ((d : ℤ) : ℚ) } user id now t k T d
    hauth hstore hknown hk rfl hb

/-! ## Fixtures for the concrete instances -/

/-- Owner A. -/
def alice : Decoded := { id := "A", email := "a@example.com" }

/-- Owner B. -/
def bob : Decoded := { id := "B", email := "b@example.com" }

/-- A verifier that knows two tokens. -/
def verify2 (token : String) : Option Decoded :=
  if token = "tokA" then some alice else if token = "tokB" then some bob else none

/-- The empty collection. -/
def emptyStore : Store := { tasks := [], nextId := 0 }

/-- A collection holding one task of owner A, created through the create route. -/
def storeA : Store := (postTasks emptyStore alice (.plain { title := some "Draft" }) 10).store

/-- A collection holding one task of owner B, created through the create route. -/
def storeB : Store := (postTasks emptyStore bob (.plain { title := some "Plan" }) 10).store

/-- A collection holding one task of owner A whose timer stands at 50 seconds. -/
def storeTimed : Store :=
  (postTasks emptyStore alice
    (.plain { title := some "Draft", timerSeconds := some (.finite 50) }) 10).store

/-- The session of owner A after a successful handshake with the token of A. -/
def sessionA : Socket :=
  { id := "s1"
    handshake := { auth := some { token := some "tokA" }, headers := none }
    userId := some "A"
    rooms := ["user_A"] }

/-- A client of owner A that loaded the tasks of `storeA` and whose socket is connected. -/
def appOnline : App :=
  { token := "tokA", tasks := storeA.tasks, timerTask := none, seconds := .finite 0
    socket := some sessionA }

/-- A client of owner A that loaded the tasks of `storeA` and whose socket connection was
not established. -/
def appOffline : App :=
  { token := "tokA", tasks := storeA.tasks, timerTask := none, seconds := .finite 0
    socket := none }

/-! ## Claims -/

/-- Claim C1 (per-owner broadcast isolation). A session whose handshake resolved to owner
B is a member of the room of B only; every event a task mutation handler emits under an
authenticated owner A is addressed to the room of A; hence when A differs from B the
session receives none of these events. -/
theorem broadcast_isolation (verify : String → Option Decoded) (sid : String) (h : Handshake)
    (session : Socket) (B : String) (user : Decoded) (s : Store) (id : Nat)
    (cbody : CreateBody) (ubody : UpdateBody) (now : Nat)
    (hconn : connect verify (newSocket sid h) = .ok session)
    (hB : session.userId = some B) (hne : user.id ≠ B) :
    session.rooms = [userRoom (some B)] ∧
      ∀ out ∈ [postTasks s user cbody now, putTasks s user id ubody now,
          deleteTasks s user id],
        (∀ e ∈ emits out.effects, e.1 = userRoom (some user.id)) ∧
          received session out.effects = [] := by
  have hrooms := (connect_rooms verify sid h session hconn).1
  rw [hB] at hrooms
  refine ⟨hrooms, ?_⟩
  intro out hout
  have hem : ∀ e ∈ emits out.effects, e.1 = userRoom (some user.id) := by
    intro e he
    rcases (handler_emits s user id cbody ubody now out hout).1 with h0 | ⟨ev, h1⟩
    · rw [h0] at he
      exact absurd he (List.not_mem_nil e)
    · rw [h1, List.mem_singleton] at he
      rw [he]
  refine ⟨hem, received_of_other_room session _ out.effects ?_ hem⟩
  rw [hrooms, List.mem_singleton]
  intro heq
  exact hne (userRoom_injective heq)

/-- Instance of C1: owner B connects with the token of B, and owner A creates, updates and
deletes. -/
theorem broadcast_isolation_witness :
    connect verify2 (newSocket "s1" { auth := some { token := some "tokB" }, headers := none })
        = .ok { id := "s1"
                handshake := { auth := some { token := some "tokB" }, headers := none }
                userId := some "B"
                rooms := ["user_B"] } ∧
      (∀ out ∈ [postTasks storeA alice (.plain {}) 11, putTasks storeA alice 0 (.plain {}) 11,
          deleteTasks storeA alice 0],
        (∀ e ∈ emits out.effects, e.1 = userRoom (some alice.id)) ∧
          received { id := "s1"
                     handshake := { auth := some { token := some "tokB" }, headers := none }
                     userId := some "B"
                     rooms := ["user_B"] } out.effects = []) :=
  ⟨rfl,
    (broadcast_isolation verify2 "s1" { auth := some { token := some "tokB" }, headers := none }
      _ "B" alice storeA 0 (.plain {}) (.plain {}) 11 rfl rfl (by decide)).2⟩

/-- Claim C2 (not owned means not found). When no stored task has the requested id
together with the authenticated owner (the id is absent, or its record belongs to someone
else), an update with any plain body and a delete both answer 404, leave the store as it
was, and emit nothing. The same holds for an update whose body carries update operators;
an update whose body is rejected leaves the store as it was and emits nothing. -/
theorem not_owned_is_not_found (s : Store) (user : Decoded) (id : Nat) (body : TaskBody)
    (change : Task → Task) (now : Nat)
    (h : ∀ t ∈ s.tasks, t._id = id → t.userId ≠ some user.id) :
    (putTasks s user id (.plain body) now).store = s ∧
      response (putTasks s user id (.plain body) now).effects = some notFound ∧
      emits (putTasks s user id (.plain body) now).effects = [] ∧
      (deleteTasks s user id).store = s ∧
      response (deleteTasks s user id).effects = some notFound ∧
      emits (deleteTasks s user id).effects = [] ∧
      notFound.status = 404 ∧
      (putTasks s user id (.operators change) now).store = s ∧
      response (putTasks s user id (.operators change) now).effects = some notFound ∧
      emits (putTasks s user id (.operators change) now).effects = [] ∧
      (putTasks s user id .rejected now).store = s ∧
      emits (putTasks s user id .rejected now).effects = [] := by
  have hf := find_none_of_not_owned s id user.id h
  rw [putTasks_of_none s user id (.plain body) now _ rfl hf,
    putTasks_of_none s user id (.operators change) now _ rfl hf,
    putTasks_of_rejected s user id .rejected now rfl,
    deleteTasks_of_none s user id hf]
  exact ⟨rfl, rfl, rfl, rfl, rfl, rfl, rfl, rfl, rfl, rfl, rfl, rfl⟩

/-- Instance of C2: owner A sends a timer update and a delete for the task of owner B. -/
theorem not_owned_is_not_found_witness :
    (∀ t ∈ storeB.tasks, t._id = 0 → t.userId ≠ some alice.id) ∧
      (putTasks storeB alice 0 (.plain { timerSeconds := some (.finite 99) }) 11).store
        = storeB ∧
      response (putTasks storeB alice 0 (.plain { timerSeconds := some (.finite 99) }) 11).effects
        = some notFound ∧
      emits (putTasks storeB alice 0 (.plain { timerSeconds := some (.finite 99) }) 11).effects
        = [] ∧
      (deleteTasks storeB alice 0).store = storeB ∧
      response (deleteTasks storeB alice 0).effects = some notFound ∧
      emits (deleteTasks storeB alice 0).effects = [] ∧
      notFound.status = 404 ∧
      (putTasks storeB alice 0 (.operators (incTimerSeconds (.finite (-10)))) 11).store
        = storeB ∧
      response (putTasks storeB alice 0 (.operators (incTimerSeconds (.finite (-10)))) 11).effects
        = some notFound ∧
      emits (putTasks storeB alice 0 (.operators (incTimerSeconds (.finite (-10)))) 11).effects
        = [] ∧
      (putTasks storeB alice 0 .rejected 11).store = storeB ∧
      emits (putTasks storeB alice 0 .rejected 11).effects = [] :=
  ⟨by decide,
    not_owned_is_not_found storeB alice 0 { timerSeconds := some (.finite 99) }
      (incTimerSeconds (.finite (-10))) 11 (by decide)⟩

/-- Claim C3 (persist, then emit exactly once). A create, update or delete that answers
200 has the trace write, emit, response: one completed store write, then one event to the
room of the authenticated owner (taskCreated with the new record, taskUpdated with the
updated record, taskDeleted with the id of the deleted record), then the response; the
written record is in the store the handler leaves behind (gone from it, for a delete).
Whatever the request, a handler emits at most one event and never emits before a
completed write. -/
theorem persist_then_emit_once (s : Store) (user : Decoded) (id : Nat) (cbody : CreateBody)
    (ubody : UpdateBody) (now : Nat) :
    (∀ r, response (postTasks s user cbody now).effects = some r → r.status = 200 →
      ∃ t, (postTasks s user cbody now).effects =
          [ .db (.inserted t), .emit (userRoom (some user.id)) (.taskCreated t),
            .respond { status := 200, body := .task t } ] ∧
        (postTasks s user cbody now).store.tasks = s.tasks ++ [t]) ∧
    (∀ r, response (putTasks s user id ubody now).effects = some r → r.status = 200 →
      ∃ t, (putTasks s user id ubody now).effects =
          [ .db (.updated t), .emit (userRoom (some user.id)) (.taskUpdated t),
            .respond { status := 200, body := .task t } ] ∧
        t._id = id ∧ t ∈ (putTasks s user id ubody now).store.tasks) ∧
    (∀ r, response (deleteTasks s user id).effects = some r → r.status = 200 →
      ∃ t, (deleteTasks s user id).effects =
          [ .db (.removed t), .emit (userRoom (some user.id)) (.taskDeleted id),
            .respond { status := 200, body := .success } ] ∧
        t._id = id ∧ s.tasks.Perm (t :: (deleteTasks s user id).store.tasks)) ∧
    (∀ out ∈ [postTasks s user cbody now, putTasks s user id ubody now,
        deleteTasks s user id],
      (emits out.effects).length ≤ 1 ∧ emitsAfterWrite false out.effects = true) := by
  refine ⟨?_, ?_, ?_, ?_⟩
  · rcases postTasks_cases s user cbody now with ⟨_, hp⟩ | ⟨t, _, _, _, _, hp⟩
    · rw [hp]
      intro r hr
      simp [response] at hr
    · rw [hp]
      intro r _ _
      exact ⟨_, rfl, rfl⟩
  · rcases putTasks_cases s user id ubody now with ⟨_, hp⟩ | ⟨_, hp⟩ | ⟨f, t, hc, hf, hp⟩
    · rw [hp]
      intro r hr
      simp [response] at hr
    · rw [hp]
      intro r hr hs
      simp only [response, Option.some.injEq] at hr
      rw [← hr] at hs
      simp [notFound] at hs
    · rw [hp]
      intro r _ _
      refine ⟨_, rfl, ?_, ?_⟩
      · rw [change_id ubody now f hc t]
        exact (ownedBy_id (List.find?_some hf)).1
      · exact modifyFirst_mem _ _ _ t hf
  · cases hf : s.tasks.find? (ownedBy id user.id) with
    | none =>
      rw [deleteTasks_of_none s user id hf]
      intro r hr hs
      simp only [response, Option.some.injEq] at hr
      rw [← hr] at hs
      simp [notFound] at hs
    | some t =>
      rw [deleteTasks_of_some s user id t hf]
      intro r _ _
      have hid := (ownedBy_id (List.find?_some hf)).1
      refine ⟨t, ?_, hid, removeFirst_perm _ _ t hf⟩
      rw [hid]
  · intro out hout
    obtain ⟨hem, hord⟩ := handler_emits s user id cbody ubody now out hout
    refine ⟨?_, hord⟩
    rcases hem with h0 | ⟨ev, h1⟩
    · simp [h0]
    · simp [h1]

/-- Instance of C3: owner A creates a task in the empty store, then updates and deletes
the task of the store that holds it. -/
theorem persist_then_emit_once_witness :
    response (postTasks emptyStore alice (.plain { title := some "Draft" }) 10).effects
        = some { status := 200
                 body := .task (newDocument emptyStore
                   (withUserId { title := some "Draft" } "A") 10) } ∧
      response (putTasks storeA alice 0 (.plain { status := some "ongoing" }) 11).effects
        = some { status := 200
                 body := .task (applyUpdate (newDocument emptyStore
                   (withUserId { title := some "Draft" } "A") 10)
                   { status := some "ongoing" } 11) } ∧
      response (deleteTasks storeA alice 0).effects = some { status := 200, body := .success } ∧
      (∃ t, (postTasks emptyStore alice (.plain { title := some "Draft" }) 10).effects =
          [ .db (.inserted t), .emit (userRoom (some alice.id)) (.taskCreated t),
            .respond { status := 200, body := .task t } ] ∧
        (postTasks emptyStore alice (.plain { title := some "Draft" }) 10).store.tasks
          = emptyStore.tasks ++ [t]) ∧
      (∃ t, (putTasks storeA alice 0 (.plain { status := some "ongoing" }) 11).effects =
          [ .db (.updated t), .emit (userRoom (some alice.id)) (.taskUpdated t),
            .respond { status := 200, body := .task t } ] ∧
        t._id = 0 ∧
        t ∈ (putTasks storeA alice 0 (.plain { status := some "ongoing" }) 11).store.tasks) ∧
      (∃ t, (deleteTasks storeA alice 0).effects =
          [ .db (.removed t), .emit (userRoom (some alice.id)) (.taskDeleted 0),
            .respond { status := 200, body := .success } ] ∧
        t._id = 0 ∧ storeA.tasks.Perm (t :: (deleteTasks storeA alice 0).store.tasks)) :=
  ⟨by decide, by decide, by decide,
    (persist_then_emit_once emptyStore alice 0 (.plain { title := some "Draft" })
      (.plain {}) 10).1
      { status := 200
        body := .task (newDocument emptyStore (withUserId { title := some "Draft" } "A") 10) }
      (by decide) rfl,
    (persist_then_emit_once storeA alice 0 (.plain {})
      (.plain { status := some "ongoing" }) 11).2.1
      { status := 200
        body := .task (applyUpdate (newDocument emptyStore
          (withUserId { title := some "Draft" } "A") 10) { status := some "ongoing" } 11) }
      (by decide) rfl,
    (persist_then_emit_once storeA alice 0 (.plain {}) (.plain {}) 11).2.2.1
      { status := 200, body := .success } (by decide) rfl⟩

/-- Claim C4 (create, list, delete). In a store with unique identifiers: after a create
under A that answered with the record, `GET /api/tasks` under A answers 200 with a list
that holds that record and holds its identifier exactly once; after a delete under A that
answered success, the list `GET /api/tasks` answers under A holds no record with the
deleted identifier. The list `GET /api/tasks` answers under A is exactly the stored records
whose userId is A, ordered by creation time; when the stored records are in creation order
it is the stored sequence restricted to A. The GET handler leaves the store as it is. -/
theorem create_list_delete (s : Store) (user : Decoded) (id : Nat) (body : CreateBody)
    (now : Nat) (hwf : s.WF) :
    (∀ t, response (postTasks s user body now).effects
        = some { status := 200, body := .task t } →
      ∃ l, getTasks (postTasks s user body now).store user =
          { store := (postTasks s user body now).store
            effects := [.respond { status := 200, body := .tasks l }] } ∧
        t ∈ l ∧ l.countP (fun x => x._id == t._id) = 1) ∧
    (response (deleteTasks s user id).effects = some { status := 200, body := .success } →
      ∃ l, getTasks (deleteTasks s user id).store user =
          { store := (deleteTasks s user id).store
            effects := [.respond { status := 200, body := .tasks l }] } ∧
        ∀ x ∈ l, x._id ≠ id) ∧
    (∃ l, getTasks s user =
        { store := s, effects := [.respond { status := 200, body := .tasks l }] } ∧
      (∀ x, x ∈ l ↔ x ∈ s.tasks ∧ x.userId = some user.id) ∧
      l.Perm (s.tasks.filter (fun t => t.userId == some user.id)) ∧
      l.Sorted byCreatedAt ∧
      (s.tasks.Sorted byCreatedAt →
        l = s.tasks.filter (fun t => t.userId == some user.id))) := by
  refine ⟨?_, ?_, ⟨Task.find s user.id, rfl, find_mem s user.id, find_perm s user.id,
    List.sorted_insertionSort byCreatedAt _, ?_⟩⟩
  · rcases postTasks_cases s user body now with ⟨_, hp⟩ | ⟨d, hdid, hduser, _, _, hp⟩
    · rw [hp]
      intro t ht
      simp [response] at ht
    · rw [hp]
      intro t ht
      simp only [response, Option.some.injEq, Response.mk.injEq, ResBody.task.injEq,
        true_and] at ht
      subst ht
      refine ⟨Task.find { tasks := s.tasks ++ [d], nextId := s.nextId + 1 } user.id, rfl, ?_⟩
      have hp2 := find_perm { tasks := s.tasks ++ [d], nextId := s.nextId + 1 } user.id
      have hfil : (s.tasks ++ [d]).filter (fun t => t.userId == some user.id)
          = s.tasks.filter (fun t => t.userId == some user.id) ++ [d] := by
        simp [List.filter_append, List.filter_cons, hduser]
      simp only [hfil] at hp2
      refine ⟨hp2.mem_iff.2 (by simp), ?_⟩
      rw [hp2.countP_eq, List.countP_append]
      have hzero : (s.tasks.filter (fun t => t.userId == some user.id)).countP
          (fun x => x._id == d._id) = 0 := by
        rw [List.countP_eq_zero]
        intro x hx hc
        have hlt := hwf.2 x (List.mem_filter.1 hx).1
        simp only [beq_iff_eq] at hc
        omega
      rw [hzero]
      simp [List.countP_cons]
  · cases hf : s.tasks.find? (ownedBy id user.id) with
    | none =>
      rw [deleteTasks_of_none s user id hf]
      intro hr
      simp [response, notFound] at hr
    | some t =>
      rw [deleteTasks_of_some s user id t hf]
      intro _
      refine ⟨Task.find (Task.findOneAndDelete s id user.id).1 user.id, rfl, ?_⟩
      intro x hx hxid
      have hmem := ((find_mem _ user.id x).1 hx).1
      simp only [Task.findOneAndDelete] at hmem
      have hperm := removeFirst_perm (ownedBy id user.id) s.tasks t hf
      have hnd : (List.map (fun t => t._id)
          (t :: (removeFirst (ownedBy id user.id) s.tasks).1)).Nodup :=
        (hperm.map _).nodup_iff.1 hwf.1
      rw [List.map_cons, List.nodup_cons] at hnd
      apply hnd.1
      have hid : t._id = x._id := (ownedBy_id (List.find?_some hf)).1.trans hxid.symm
      rw [hid]
      exact List.mem_map_of_mem (fun t => t._id) hmem
  · intro hs
    unfold Task.find
    exact List.Sorted.insertionSort_eq (hs.filter _)

/-- Instance of C4: owner A creates a second task next to the first one, deletes the first
one, and lists. -/
theorem create_list_delete_witness :
    storeA.WF ∧
      response (postTasks storeA alice (.plain { title := some "Review" }) 12).effects
        = some { status := 200
                 body := .task (newDocument storeA (withUserId { title := some "Review" } "A") 12) } ∧
      response (deleteTasks storeA alice 0).effects = some { status := 200, body := .success } ∧
      storeA.tasks.Sorted byCreatedAt ∧
      (response (getTasks (postTasks storeA alice (.plain { title := some "Review" }) 12).store
          alice).effects).map (fun r => r.status) = some 200 ∧
      (∃ l, getTasks (postTasks storeA alice (.plain { title := some "Review" }) 12).store alice =
          { store := (postTasks storeA alice (.plain { title := some "Review" }) 12).store
            effects := [.respond { status := 200, body := .tasks l }] } ∧
        newDocument storeA (withUserId { title := some "Review" } "A") 12 ∈ l ∧
        l.countP (fun x => x._id
          == (newDocument storeA (withUserId { title := some "Review" } "A") 12)._id) = 1) ∧
      (∃ l, getTasks (deleteTasks storeA alice 0).store alice =
          { store := (deleteTasks storeA alice 0).store
            effects := [.respond { status := 200, body := .tasks l }] } ∧
        ∀ x ∈ l, x._id ≠ 0) ∧
      getTasks storeA alice =
        { store := storeA
          effects :=
            [.respond { status := 200
                        body := .tasks (storeA.tasks.filter
                          (fun t => t.userId == some alice.id)) }] } :=
  ⟨WF_postTasks _ _ _ _ WF_emptyStore, by decide, by decide, by decide, by decide,
    (create_list_delete storeA alice 0 (.plain { title := some "Review" }) 12
      (WF_postTasks _ _ _ _ WF_emptyStore)).1
      (newDocument storeA (withUserId { title := some "Review" } "A") 12) (by decide),
    (create_list_delete storeA alice 0 (.plain {}) 12 (WF_postTasks _ _ _ _ WF_emptyStore)).2.1
      (by decide),
    by decide⟩

/-- Counterexample to C5: a create without a title, and a create with the empty title,
are not rejected; each persists a record and emits taskCreated. -/
theorem create_without_title_succeeds :
    (∃ r, Task.create emptyStore (.plain (withUserId {} "A")) 10 = .ok r) ∧
      (postTasks emptyStore alice (.plain {}) 10).store.tasks.map (fun t => t.title)
        = [none] ∧
      (emits (postTasks emptyStore alice (.plain {}) 10).effects).length = 1 ∧
      (∃ r, Task.create emptyStore (.plain (withUserId { title := some "" } "A")) 10 = .ok r) ∧
      (postTasks emptyStore alice (.plain { title := some "" }) 10).store.tasks.map
        (fun t => t.title) = [some ""] ∧
      (emits (postTasks emptyStore alice (.plain { title := some "" }) 10).effects).length = 1 :=
  ⟨⟨_, rfl⟩, by decide, by decide, ⟨_, rfl⟩, by decide, by decide⟩

/-- Claim C5, amended (create does not require a title). A create whose plain body has
the title missing or empty and the status absent or in the enum succeeds: it persists
exactly one new record carrying the title as sent and emits one taskCreated with it. A
create fails for a plain body with a status outside the enum and for a body with a value
that fails its cast; whenever a create fails, whatever the body, the error is a validation
error, no record is persisted and nothing is emitted. -/
theorem create_does_not_require_title (s : Store) (user : Decoded) (paths : TaskBody)
    (body : CreateBody) (now : Nat) :
    ((paths.title = none ∨ paths.title = some "") →
      paths.status.getD "pending" ∈ statusEnum →
      ∃ t, Task.create s (.plain (withUserId paths user.id)) now
          = .ok ({ tasks := s.tasks ++ [t], nextId := s.nextId + 1 }, t) ∧
        t.title = paths.title ∧
        (postTasks s user (.plain paths) now).store.tasks = s.tasks ++ [t] ∧
        emits (postTasks s user (.plain paths) now).effects
          = [(userRoom (some user.id), .taskCreated t)]) ∧
    (paths.status.getD "pending" ∉ statusEnum →
      Task.create s (.plain (withUserId paths user.id)) now = .error "ValidationError") ∧
    Task.create s (CreateBody.invalid.withUserId user.id) now = .error "ValidationError" ∧
    (∀ e, Task.create s (body.withUserId user.id) now = .error e →
      e = "ValidationError" ∧
        (postTasks s user body now).store = s ∧
        (postTasks s user body now).effects = []) := by
  refine ⟨?_, ?_, rfl, ?_⟩
  · intro _ hv
    have h2 : enumValidator (newDocument s (withUserId paths user.id) now).status = true := by
      simpa [newDocument, withUserId, enumValidator] using hv
    refine ⟨newDocument s (withUserId paths user.id) now, ?_, rfl, ?_, ?_⟩
    · simp only [Task.create, CreateBody.document, h2, if_true]
    · rw [postTasks_of_valid s user paths now hv]
    · rw [postTasks_of_valid s user paths now hv]
      rfl
  · intro hv
    have h2 : enumValidator (newDocument s (withUserId paths user.id) now).status = false := by
      simpa [newDocument, withUserId, enumValidator] using hv
    simp only [Task.create, CreateBody.document, h2, Bool.false_eq_true, if_false]
  · intro e he
    refine ⟨create_error s _ now e he, ?_, ?_⟩
    · rw [postTasks_of_failed s user body now e he]
    · rw [postTasks_of_failed s user body now e he]

/-- Instance of amended C5: a create without title and status, a create with a status
outside the enum, and a create with a value that fails its cast. -/
theorem create_does_not_require_title_witness :
    (none : Option String).getD "pending" ∈ statusEnum ∧
      (some "archived").getD "pending" ∉ statusEnum ∧
      (∃ t, Task.create emptyStore (.plain (withUserId {} alice.id)) 10
          = .ok ({ tasks := emptyStore.tasks ++ [t], nextId := emptyStore.nextId + 1 }, t) ∧
        t.title = none ∧
        (postTasks emptyStore alice (.plain {}) 10).store.tasks = emptyStore.tasks ++ [t] ∧
        emits (postTasks emptyStore alice (.plain {}) 10).effects
          = [(userRoom (some alice.id), .taskCreated t)]) ∧
      Task.create emptyStore (.plain (withUserId { status := some "archived" } alice.id)) 10
        = .error "ValidationError" ∧
      ("ValidationError" = "ValidationError" ∧
        (postTasks emptyStore alice .invalid 10).store = emptyStore ∧
        (postTasks emptyStore alice .invalid 10).effects = []) :=
  ⟨by decide, by decide,
    (create_does_not_require_title emptyStore alice {} .invalid 10).1 (Or.inl rfl) (by decide),
    (create_does_not_require_title emptyStore alice { status := some "archived" }
      .invalid 10).2.1 (by decide),
    (create_does_not_require_title emptyStore alice {} .invalid 10).2.2.2
      "ValidationError" rfl⟩

/-- Claim C6 at its failing input: owner A updates the own task with a body that carries
`userId: "B"`. The update answers 200 and the stored record changes owner from A to B: it
leaves the list of A and enters the list of B. The create route overrides a `userId` sent
by the client; the update route passes the body on as it is. -/
theorem update_reassigns_owner :
    storeA.tasks.map (fun t => t.userId) = [some "A"] ∧
      (response (putTasks storeA alice 0 (.plain { userId := some "B" }) 11).effects).map
        (fun r => r.status) = some 200 ∧
      (putTasks storeA alice 0 (.plain { userId := some "B" }) 11).store.tasks.map
        (fun t => (t._id, t.userId)) = [(0, some "B")] ∧
      Task.find (putTasks storeA alice 0 (.plain { userId := some "B" }) 11).store "A" = [] ∧
      (Task.find (putTasks storeA alice 0 (.plain { userId := some "B" }) 11).store "B").map
        (fun t => t._id) = [0] ∧
      (postTasks emptyStore alice (.plain { userId := some "B" }) 10).store.tasks.map
        (fun t => t.userId) = [some "A"] := by
  decide

/-- Counterexample to C7: an update whose body carries `timerSeconds: 0` lowers a stored
timer from 50 to 0, and a create whose body carries `timerSeconds: -5` persists a negative
timer. -/
theorem timer_lowered_by_update :
    storeTimed.tasks.map (fun t => t.timerSeconds) = [some (.finite 50)] ∧
      (response (putTasks storeTimed alice 0
        (.plain { timerSeconds := some (.finite 0) }) 11).effects).map
        (fun r => r.status) = some 200 ∧
      (putTasks storeTimed alice 0
        (.plain { timerSeconds := some (.finite 0) }) 11).store.tasks.map
        (fun t => t.timerSeconds) = [some (.finite 0)] ∧
      Num.lt (.finite 0) (.finite 50) ∧
      (postTasks emptyStore alice
        (.plain { timerSeconds := some (.finite (-5)) }) 10).store.tasks.map
        (fun t => t.timerSeconds) = [some (.finite (-5))] ∧
      Num.lt (.finite (-5)) (.finite 0) := by
  decide

/-- Claim C7, amended (the timer is assigned by the body). For a plain body (no update
operators, no null values): an accepted update stores the timerSeconds of the body when
the body carries one and keeps the stored value otherwise, so it lowers the timer exactly
when the body carries a value below the stored one; an accepted create stores the
timerSeconds of the body when present and 0 otherwise, so the new timer is negative
exactly when the body carries a negative value. -/
theorem timer_assigned_by_body (s : Store) (user : Decoded) (id : Nat) (body : TaskBody)
    (now : Nat) :
    (∀ t, s.tasks.find? (ownedBy id user.id) = some t →
      ∃ u, response (putTasks s user id (.plain body) now).effects
          = some { status := 200, body := .task u } ∧
        u ∈ (putTasks s user id (.plain body) now).store.tasks ∧
        u._id = t._id ∧
        (body.timerSeconds = none → u.timerSeconds = t.timerSeconds) ∧
        (∀ v, body.timerSeconds = some v → u.timerSeconds = some v) ∧
        (lowered t.timerSeconds u.timerSeconds ↔
          ∃ v, body.timerSeconds = some v ∧ lowered t.timerSeconds (some v))) ∧
    (∀ t, response (postTasks s user (.plain body) now).effects
        = some { status := 200, body := .task t } →
      (body.timerSeconds = none → t.timerSeconds = some (.finite 0)) ∧
        (∀ v, body.timerSeconds = some v → t.timerSeconds = some v) ∧
        (lowered (some (.finite 0)) t.timerSeconds ↔
          ∃ v, body.timerSeconds = some v ∧ Num.lt v (.finite 0))) := by
  constructor
  · intro t hf
    rw [putTasks_of_some s user id (.plain body) now _ rfl t hf]
    refine ⟨applyUpdate t body now, rfl, modifyFirst_mem _ _ _ t hf, rfl, ?_, ?_, ?_⟩
    · intro hb
      simp [applyUpdate, hb]
    · intro v hb
      simp [applyUpdate, hb]
    · cases hb : body.timerSeconds with
      | none =>
        have hu : (applyUpdate t body now).timerSeconds = t.timerSeconds := by
          simp [applyUpdate, hb]
        rw [hu]
        constructor
        · rintro ⟨b, a, h1, h2, h3⟩
          rw [h1] at h2
          simp only [Option.some.injEq] at h2
          subst h2
          exact absurd h3 (Num.lt_irrefl _)
        · rintro ⟨v, hv, _⟩
          simp at hv
      | some w =>
        have hu : (applyUpdate t body now).timerSeconds = some w := by
          simp [applyUpdate, hb]
        rw [hu]
        constructor
        · intro h
          exact ⟨w, rfl, h⟩
        · rintro ⟨v, hv, h⟩
          simp only [Option.some.injEq] at hv
          subst hv
          exact h
  · by_cases hv : body.status.getD "pending" ∈ statusEnum
    · rw [postTasks_of_valid s user body now hv]
      intro t ht
      simp only [response, Option.some.injEq, Response.mk.injEq, ResBody.task.injEq,
        true_and] at ht
      subst ht
      refine ⟨?_, ?_, ?_⟩
      · intro hb
        simp [newDocument, withUserId, hb]
      · intro v hb
        simp [newDocument, withUserId, hb]
      · cases hb : body.timerSeconds with
        | none =>
          simp [newDocument, withUserId, hb, lowered, Num.lt]
        | some w =>
          simp [newDocument, withUserId, hb, lowered]
    · rw [postTasks_of_invalid s user body now hv]
      intro t ht
      simp [response] at ht

/-- Instance of amended C7: a timer update from 50 to 92, and a create without a timer. -/
theorem timer_assigned_by_body_witness :
    storeTimed.tasks.find? (ownedBy 0 alice.id)
        = some (newDocument emptyStore
            (withUserId { title := some "Draft", timerSeconds := some (.finite 50) } "A") 10) ∧
      response (postTasks emptyStore alice (.plain { title := some "Draft" }) 10).effects
        = some { status := 200
                 body := .task (newDocument emptyStore
                   (withUserId { title := some "Draft" } "A") 10) } ∧
      (∃ u, response (putTasks storeTimed alice 0
            (.plain { timerSeconds := some (.finite 92) }) 11).effects
          = some { status := 200, body := .task u } ∧
        u ∈ (putTasks storeTimed alice 0
          (.plain { timerSeconds := some (.finite 92) }) 11).store.tasks ∧
        u._id = 0 ∧
        u.timerSeconds = some (.finite 92)) ∧
      (newDocument emptyStore (withUserId { title := some "Draft" } "A") 10).timerSeconds
        = some (.finite 0) :=
  ⟨by decide, by decide,
    (fun ⟨u, h1, h2, h3, _, h5, _⟩ => ⟨u, h1, h2, h3, h5 _ rfl⟩)
      ((timer_assigned_by_body storeTimed alice 0 { timerSeconds := some (.finite 92) } 11).1
        (newDocument emptyStore
          (withUserId { title := some "Draft", timerSeconds := some (.finite 50) } "A") 10)
        (by decide)),
    ((timer_assigned_by_body emptyStore alice 0 { title := some "Draft" } 10).2
      (newDocument emptyStore (withUserId { title := some "Draft" } "A") 10) (by decide)).1
      rfl⟩

/-- An update with the operator body `{ $inc: { timerSeconds: -10 } }` carries no
timerSeconds path of its own and lowers a stored timer from 50 to 40. -/
theorem inc_lowers_timer :
    ∃ u, response (putTasks storeTimed alice 0
          (.operators (incTimerSeconds (.finite (-10)))) 11).effects
        = some { status := 200, body := .task u } ∧
      u.timerSeconds = some (.finite 40) ∧
      lowered (some (.finite 50)) u.timerSeconds := by
  have hadd : Num.add (.finite 50) (.finite (-10)) = .finite 40 := by
    have h := Num.add_intCast 50 (-10) (by decide)
    norm_num at h
    exact h
  have hf : storeTimed.tasks.find? (ownedBy 0 alice.id)
      = some (newDocument emptyStore
          (withUserId { title := some "Draft", timerSeconds := some (.finite 50) } "A") 10) := by
    decide
  rw [putTasks_of_some storeTimed alice 0 (.operators (incTimerSeconds (.finite (-10)))) 11
    _ rfl _ hf]
  refine ⟨_, rfl, ?_, ?_⟩
  · simp [incTimerSeconds, newDocument, withUserId, hadd]
  · refine ⟨.finite 50, .finite 40, rfl, ?_, by decide⟩
    simp [incTimerSeconds, newDocument, withUserId, hadd]

/-- Claim C8 at its failing input: owner A updates the own task with a body that carries
`status: "archived"`. The update answers 200 and the stored status is a value outside the
enum of the schema. The create route rejects the same status. -/
theorem update_persists_status_outside_enum :
    (response (putTasks storeA alice 0 (.plain { status := some "archived" }) 11).effects).map
        (fun r => r.status) = some 200 ∧
      (putTasks storeA alice 0 (.plain { status := some "archived" }) 11).store.tasks.map
        (fun t => t.status) = [some "archived"] ∧
      "archived" ∉ statusEnum ∧
      (postTasks emptyStore alice (.plain { status := some "archived" }) 10).store.tasks
        = [] := by
  decide

/-- Claim C9 (one trust root for both channels). Let the HTTP middleware take its token
from an Authorization header. A handshake that carries the same token in `auth.token`
(whatever its own headers), and a handshake without `auth.token` that carries the same
header, are accepted exactly when the request is, and then resolve the same owner id. In
particular this holds for the header `Bearer <token>` of any non-empty token without a
space. Without a token both channels reject (401 and the no-token error), with a token
that fails verification both reject (401 and the invalid-token error), and after a
rejection the route handler does not run and the connection listener joins no room. -/
theorem shared_trust_root (verify : String → Option Decoded) (authorization : Option String)
    (sid : String) (headers : Option HandshakeHeaders) (s : Store)
    (handler : Decoded → Outcome) :
    (∀ token, bearerToken authorization = some token →
      accepts (connect verify
          (newSocket sid { auth := some { token := some token }, headers := headers }))
        = accepts (authMiddleware verify authorization) ∧
      socketOwner verify sid { auth := some { token := some token }, headers := headers }
        = httpOwner verify authorization) ∧
    (accepts (connect verify
        (newSocket sid { auth := none, headers := some { authorization := authorization } }))
        = accepts (authMiddleware verify authorization) ∧
      socketOwner verify sid { auth := none, headers := some { authorization := authorization } }
        = httpOwner verify authorization) ∧
    (∀ token, token ≠ "" → ' ' ∉ token.data →
      accepts (connect verify
          (newSocket sid { auth := some { token := some token }, headers := headers }))
        = accepts (authMiddleware verify (some ("Bearer " ++ token))) ∧
      socketOwner verify sid { auth := some { token := some token }, headers := headers }
        = httpOwner verify (some ("Bearer " ++ token)) ∧
      accepts (authMiddleware verify (some ("Bearer " ++ token))) = (verify token).isSome ∧
      httpOwner verify (some ("Bearer " ++ token)) = (verify token).map (fun d => d.id)) ∧
    (bearerToken authorization = none →
      authMiddleware verify authorization
        = .error { status := 401, body := .error "No token provided" } ∧
      protect verify authorization s handler
        = { store := s
            effects := [.respond { status := 401, body := .error "No token provided" }] } ∧
      connect verify
          (newSocket sid { auth := none, headers := some { authorization := authorization } })
        = .error "Authentication error: no token" ∧
      connect verify (newSocket sid { auth := none, headers := none })
        = .error "Authentication error: no token") ∧
    (∀ token, bearerToken authorization = some token → verify token = none →
      authMiddleware verify authorization
        = .error { status := 401, body := .error "Invalid token" } ∧
      protect verify authorization s handler
        = { store := s
            effects := [.respond { status := 401, body := .error "Invalid token" }] } ∧
      connect verify
          (newSocket sid { auth := some { token := some token }, headers := headers })
        = .error "Authentication error: invalid token" ∧
      connect verify
          (newSocket sid { auth := none, headers := some { authorization := authorization } })
        = .error "Authentication error: invalid token") := by
  refine ⟨?_, ?_, ?_, ?_, ?_⟩
  · intro token ht
    apply channels_agree
    rw [ht]
    exact handshakeToken_auth token headers (bearerToken_ne_empty _ _ ht)
  · exact channels_agree verify authorization sid _ (handshakeToken_header authorization)
  · intro token h1 h2
    have hb := bearerToken_bearer token h1 h2
    have hagree := channels_agree verify (some ("Bearer " ++ token)) sid
      { auth := some { token := some token }, headers := headers }
      (by rw [hb]; exact handshakeToken_auth token headers h1)
    refine ⟨hagree.1, hagree.2, ?_, ?_⟩
    · unfold authMiddleware
      rw [hb]
      cases hv : verify token <;> simp [hv, accepts]
    · unfold httpOwner authMiddleware
      rw [hb]
      cases hv : verify token <;> simp [hv]
  · intro hn
    have hmw : authMiddleware verify authorization
        = .error { status := 401, body := .error "No token provided" } := by
      unfold authMiddleware
      rw [hn]
    refine ⟨hmw, ?_, ?_, ?_⟩
    · unfold protect
      rw [hmw]
    · rw [connect_eq, handshakeToken_header, hn]
    · rw [connect_eq]
      rfl
  · intro token ht hv
    have hmw : authMiddleware verify authorization
        = .error { status := 401, body := .error "Invalid token" } := by
      unfold authMiddleware
      rw [ht]
      simp only [hv]
    refine ⟨hmw, ?_, ?_, ?_⟩
    · unfold protect
      rw [hmw]
    · rw [connect_eq, handshakeToken_auth token headers (bearerToken_ne_empty _ _ ht)]
      simp only [hv]
    · rw [connect_eq, handshakeToken_header, ht]
      simp only [hv]

/-- Instance of C9: the token of owner A is accepted on both channels and resolves owner
A; an absent header and an unknown token are rejected on both. -/
theorem shared_trust_root_witness :
    bearerToken (some "Bearer tokA") = some "tokA" ∧
      bearerToken none = none ∧
      bearerToken (some "Bearer forged") = some "forged" ∧
      verify2 "forged" = none ∧
      "tokA" ≠ "" ∧ ' ' ∉ "tokA".data ∧
      httpOwner verify2 (some "Bearer tokA") = some "A" ∧
      socketOwner verify2 "s1" { auth := some { token := some "tokA" }, headers := none }
        = httpOwner verify2 (some "Bearer tokA") ∧
      socketOwner verify2 "s1"
          { auth := none, headers := some { authorization := some "Bearer tokA" } }
        = httpOwner verify2 (some "Bearer tokA") ∧
      accepts (authMiddleware verify2 (some ("Bearer " ++ "tokA"))) = (verify2 "tokA").isSome ∧
      connect verify2 (newSocket "s1" { auth := none, headers := none })
        = .error "Authentication error: no token" ∧
      protect verify2 (some "Bearer forged") storeA (fun user => deleteTasks storeA user 0)
        = { store := storeA
            effects := [.respond { status := 401, body := .error "Invalid token" }] } :=
  ⟨by decide, by decide, by decide, by decide, by decide, by decide, by decide,
    ((shared_trust_root verify2 (some "Bearer tokA") "s1" none storeA
      (fun user => deleteTasks storeA user 0)).1 "tokA" (by decide)).2,
    (shared_trust_root verify2 (some "Bearer tokA") "s1" none storeA
      (fun user => deleteTasks storeA user 0)).2.1.2,
    ((shared_trust_root verify2 none "s1" none storeA
      (fun user => deleteTasks storeA user 0)).2.2.1 "tokA" (by decide) (by decide)).2.2.1,
    ((shared_trust_root verify2 none "s1" none storeA
      (fun user => deleteTasks storeA user 0)).2.2.2.1 (by decide)).2.2.2,
    ((shared_trust_root verify2 (some "Bearer forged") "s1" none storeA
      (fun user => deleteTasks storeA user 0)).2.2.2.2 "forged" (by decide) (by decide)).2.1⟩

/-- Counterexample to C10: a client whose socket connection was not established never
hears the taskUpdated broadcast, so after accumulating 5 and then 7 seconds on a task whose
timer stood at 0 the stored timer is 7, not 12. -/
theorem accumulation_lost_when_stale :
    ∃ t0 t1 t2,
      storeA.tasks.find? (ownedBy 0 "A") = some t0 ∧
      t0.timerSeconds = some (.finite 0) ∧
      (accumulate verify2 storeA appOffline 0 5 11).1.tasks.find? (ownedBy 0 "A") = some t1 ∧
      t1.timerSeconds = some (.finite 5) ∧
      (accumulate verify2 (accumulate verify2 storeA appOffline 0 5 11).1
          (accumulate verify2 storeA appOffline 0 5 11).2 0 7 12).1.tasks.find?
        (ownedBy 0 "A") = some t2 ∧
      t2.timerSeconds = some (.finite 7) ∧
      (Num.finite 7 ≠ Num.finite (0 + 5 + 7)) := by
  have hf : storeA.tasks.find? (ownedBy 0 alice.id)
      = some (newDocument emptyStore (withUserId { title := some "Draft" } "A") 10) := by
    decide
  have hk : (newDocument emptyStore (withUserId { title := some "Draft" } "A") 10).timerSeconds
      = some (.finite ((0 : ℤ) : ℚ)) := by
    simp [newDocument, withUserId]
  obtain ⟨u1, _, hu1, hs1, hc1⟩ := accumulate_step verify2 storeA appOffline alice 0 5 11
    _ _ 0 rfl hf hf hk rfl (by decide)
  have happ : (accumulate verify2 storeA appOffline 0 5 11).2 = appOffline := by
    rw [hc1, listen_offline _ _ rfl]
    rfl
  rw [happ]
  obtain ⟨u2, _, hu2, hs2, _⟩ := accumulate_step verify2
    (accumulate verify2 storeA appOffline 0 5 11).1 appOffline alice 0 7 12
    u1 _ 0 rfl hs1 hf hk rfl (by decide)
  refine ⟨_, u1, u2, hf, ?_, hs1, ?_, hs2, ?_, ?_⟩
  · simp [newDocument, withUserId]
  · rw [hu1]
    norm_num
  · rw [hu2]
    norm_num
  · norm_num [Num.finite.injEq]

/-- Claim C10, amended (accumulation is additive for a synchronised client and integer
timers in the exact range). Take a client authenticated as the owner of a stored task,
whose socket is in the room of that owner, whose task list holds the task with its stored
timerSeconds, and whose timer is idle; let the stored timerSeconds be an integer T with
|T| + d1 + d2 below 2^53. Accumulating d1 and then d2 seconds from that client (start the
timer, let it count, stop it, twice) leaves the stored timerSeconds at T + d1 + d2. -/
theorem accumulation_additive (verify : String → Option Decoded) (s : Store) (app : App)
    (session : Socket) (user : Decoded) (id : Nat) (d1 d2 now1 now2 : Nat) (t0 k : Task)
    (T : ℤ)
    (hauth : authMiddleware verify (some ("Bearer " ++ app.token)) = .ok user)
    (hsock : app.socket = some session)
    (hroom : userRoom (some user.id) ∈ session.rooms)
    (hstore : s.tasks.find? (ownedBy id user.id) = some t0)
    (hknown : app.tasks.find? (fun x => x._id == id) = some k)
    (hsync : k.timerSeconds = t0.timerSeconds)
    (hT : t0.timerSeconds = some (.finite (T : ℚ)))
    (hidle : app.seconds = .finite 0)
    (hb : T.natAbs + d1 + d2 < 2 ^ 53) :
    ∃ t2,
      (accumulate verify (accumulate verify s app id d1 now1).1
          (accumulate verify s app id d1 now1).2 id d2 now2).1.tasks.find?
        (ownedBy id user.id) = some t2 ∧
      t2.timerSeconds = some (.finite ((T + d1 + d2 : ℤ) : ℚ)) := by
  obtain ⟨u1, hid1, hu1, hs1, hc1⟩ := accumulate_step verify s app user id d1 now1 t0 k T
    hauth hstore hknown (hsync.trans hT) hidle (by omega)
  obtain ⟨k1, hk1, hf1⟩ := listen_online
    { app with timerTask := some id, seconds := .finite ((d1 : ℤ) : ℚ) } session
    (userRoom (some user.id)) id u1 k _ hsock hroom hknown hid1 hu1
  have hfields := listen_fields
    { app with timerTask := some id, seconds := .finite ((d1 : ℤ) : ℚ) }
    [ .db (.updated u1), .emit (userRoom (some user.id)) (.taskUpdated u1),
      .respond { status := 200, body := .task u1 } ]
  have htok : (accumulate verify s app id d1 now1).2.token = app.token := by
    rw [hc1]
    exact hfields.1
  have htasks : (accumulate verify s app id d1 now1).2.tasks.find? (fun x => x._id == id)
      = some k1 := by
    rw [hc1]
    exact hf1
  have hsec : (accumulate verify s app id d1 now1).2.seconds = .finite 0 := by
    rw [hc1]
  obtain ⟨u2, _, hu2, hs2, _⟩ := accumulate_step verify (accumulate verify s app id d1 now1).1
    (accumulate verify s app id d1 now1).2 user id d2 now2 u1 k1 (T + d1)
    (by rw [htok]; exact hauth) hs1 htasks hk1 hsec (by omega)
  exact ⟨u2, hs2, hu2⟩

/-- Instance of amended C10: the connected client of owner A accumulates 5 and then 7
seconds on the task whose timer stands at 0. -/
theorem accumulation_additive_witness :
    authMiddleware verify2 (some ("Bearer " ++ appOnline.token)) = .ok alice ∧
      userRoom (some alice.id) ∈ sessionA.rooms ∧
      storeA.tasks.find? (ownedBy 0 alice.id)
        = some (newDocument emptyStore (withUserId { title := some "Draft" } "A") 10) ∧
      appOnline.tasks.find? (fun x => x._id == 0)
        = some (newDocument emptyStore (withUserId { title := some "Draft" } "A") 10) ∧
      (newDocument emptyStore (withUserId { title := some "Draft" } "A") 10).timerSeconds
        = some (.finite ((0 : ℤ) : ℚ)) ∧
      (0 : ℤ).natAbs + 5 + 7 < 2 ^ 53 ∧
      ∃ t2,
        (accumulate verify2 (accumulate verify2 storeA appOnline 0 5 11).1
            (accumulate verify2 storeA appOnline 0 5 11).2 0 7 12).1.tasks.find?
          (ownedBy 0 alice.id) = some t2 ∧
        t2.timerSeconds = some (.finite (((0 : ℤ) + (5 : ℕ) + (7 : ℕ) : ℤ) : ℚ)) :=
  ⟨rfl, by decide, by decide, by decide, by simp [newDocument, withUserId], by decide,
    accumulation_additive verify2 storeA appOnline sessionA alice 0 5 7 11 12
      (newDocument emptyStore (withUserId { title := some "Draft" } "A") 10)
      (newDocument emptyStore (withUserId { title := some "Draft" } "A") 10) 0
      rfl rfl (by decide) (by decide) (by decide) rfl (by simp [newDocument, withUserId]) rfl
      (by decide)⟩

end ProjectManagement
